import Mathlib

/-!
Shallow embedding of the dimension-annotation pipeline of `chk_demension.py`
(arrow detection, leader assembly, text matching, boundary-line detection),
together with theorems settling the specification claims.

Modelling conventions:
* Coordinates are exact reals; the Python floats are idealised as `ℝ`.
* Python object identity of `Line` / `TextEntity` / `ArrowLeader` instances is
  modelled by the position (index) of the object in the input list, exactly as
  the design notes of the spec prescribe ("model identity via a stable integer
  index").  `Arrow` therefore stores the indices of its shaft and barbs, and
  the consumed-barb set / excluded-arrow-line set are sets of indices.
* Reporting-only metadata (handles, layers, colours, text content, …) plays no
  role in any of the algorithms under verification and is omitted from the
  records.
-/

namespace CadWork

noncomputable section

open scoped Classical

/-- 2D point, as in class `Point`. -/
structure Point where
  x : ℝ
  y : ℝ

/-- Line segment with a start and an end point, as in class `Line`
(metadata fields dropped; identity is the index in the segment list). -/
structure Line where
  start_point : Point
  end_point : Point

/-- The `'start' | 'end' | 'both'` string tags used by the Python code for
endpoint selection and arrow direction. -/
inductive Loc where
  | start
  | end'
  | both
deriving DecidableEq

/-- Detected arrow, as in class `Arrow`; `shaft`, `left_barb`, `right_barb`
are indices into the segment list. -/
structure Arrow where
  shaft : ℕ
  left_barb : ℕ
  right_barb : ℕ
  tip_point : Point
  direction : Loc

/-- Text entity, as in class `TextEntity` (only the fields the matching logic
reads and writes: the anchor position and the back references). -/
structure TextEntity where
  position : Point
  matched_arrows : List ℕ

/-- Leader derived from one arrow, as in class `ArrowLeader`; `matched_text`
is a text index, `matched_boundaries` and `line_chain` are segment indices. -/
structure ArrowLeader where
  arrow : Arrow
  leader_position : Point
  line_chain : List ℕ
  matched_text : Option ℕ
  matched_boundaries : List ℕ

/-- The `CONFIG['ARROW_DETECTION']` sub-dictionary. -/
structure ArrowDetectionConfig where
  tip_point_tolerance : ℝ
  barb_length_diff_max : ℝ
  arrow_angle_max : ℝ
  barb_angle_diff_max : ℝ

/-- The `CONFIG['LEADER_ARROW_MATCHING']` sub-dictionary. -/
structure LeaderArrowMatchingConfig where
  max_distance : ℝ

/-- The `CONFIG['LEADER_BOUNDARY_MATCHING']` sub-dictionary. -/
structure LeaderBoundaryMatchingConfig where
  max_distance_to_arrow : ℝ
  perpendicular_angle_min : ℝ
  perpendicular_angle_max : ℝ

/-- The configuration dictionary `CONFIG`. -/
structure Config where
  ARROW_DETECTION : ArrowDetectionConfig
  LEADER_ARROW_MATCHING : LeaderArrowMatchingConfig
  LEADER_BOUNDARY_MATCHING : LeaderBoundaryMatchingConfig

/-- The default configuration values of `CONFIG` in `chk_demension.py`. -/
def CONFIG : Config where
  ARROW_DETECTION := ⟨0.1, 0.2, 75, 0.5⟩
  LEADER_ARROW_MATCHING := ⟨10⟩
  LEADER_BOUNDARY_MATCHING := ⟨5, 89.5, 90.5⟩

/-- Degenerate default line used to totalise list indexing. -/
def defaultLine : Line := ⟨⟨0, 0⟩, ⟨0, 0⟩⟩

/-- The segment with index `i` (out-of-range indices give the degenerate
zero-length line, which never satisfies any of the predicates involved). -/
def lineAt (lines : List Line) (i : ℕ) : Line := lines.getD i defaultLine

/-- Function `length`: Euclidean length of a segment. -/
def length (line : Line) : ℝ :=
  Real.sqrt ((line.end_point.x - line.start_point.x) * (line.end_point.x - line.start_point.x) +
    (line.end_point.y - line.start_point.y) * (line.end_point.y - line.start_point.y))

/-- Function `distance`: Euclidean distance between two points. -/
def distance (point1 point2 : Point) : ℝ :=
  Real.sqrt ((point2.x - point1.x) * (point2.x - point1.x) +
    (point2.y - point1.y) * (point2.y - point1.y))

/-- Function `direction_vector`. -/
def direction_vector (line : Line) : ℝ × ℝ :=
  (line.end_point.x - line.start_point.x, line.end_point.y - line.start_point.y)

/-- Function `dot_product`. -/
def dot_product (v1 v2 : ℝ × ℝ) : ℝ := v1.1 * v2.1 + v1.2 * v2.2

/-- Function `angle_between`: angle between two segments in degrees, in
`[0, 180]`; zero-length direction vectors yield `0`, and the cosine is clamped
into `[-1, 1]` before the inverse cosine. -/
def angle_between (line1 line2 : Line) : ℝ :=
  let v1 := direction_vector line1
  let v2 := direction_vector line2
  let dot := dot_product v1 v2
  let mag1 := Real.sqrt (v1.1 ^ 2 + v1.2 ^ 2)
  let mag2 := Real.sqrt (v2.1 ^ 2 + v2.2 ^ 2)
  if mag1 = 0 ∨ mag2 = 0 then 0
  else
    let cos_angle := max (-1 : ℝ) (min 1 (dot / (mag1 * mag2)))
    let angle_rad := Real.arccos cos_angle
    angle_rad * 180 / Real.pi

/-- Function `are_lines_parallel`: true when the angle is below the threshold
or above `180 -` the threshold (the Python default threshold is `5.0`). -/
def are_lines_parallel (line1 line2 : Line) (angle_threshold : ℝ) : Prop :=
  angle_between line1 line2 < angle_threshold ∨
    angle_between line1 line2 > 180 - angle_threshold

/-- Function `get_leader_position`: the position an arrow leader points at. -/
def get_leader_position (arrow_line : Line) (arrow_location : Loc) : Point :=
  match arrow_location with
  | .end' => arrow_line.start_point
  | .start => arrow_line.end_point
  | .both =>
      ⟨(arrow_line.start_point.x + arrow_line.end_point.x) / 2,
       (arrow_line.start_point.y + arrow_line.end_point.y) / 2⟩

/-- The `meeting_lines[i]` record of the meeting-point pass: the shorter
segments found to meet segment `i` at its start point resp. end point.  Each
entry is `(j, jp)` where `jp` tags which endpoint of segment `j` realised the
minimum distance. -/
structure Meets where
  start : List (ℕ × Loc)
  end' : List (ℕ × Loc)

/-- The endpoint of a line selected by a `'start'` / `'end'` tag (the `both`
tag never occurs as an endpoint selector). -/
def endpointOf (line : Line) : Loc → Point
  | .start => line.start_point
  | _ => line.end_point

/-- Left fold mirroring Python's `min(..., key=lambda x: x[0])`: the running
minimum is replaced only when a strictly smaller key appears, so the first of
several equal minima wins. -/
def minByFirst (x : ℝ × Loc × Loc) : List (ℝ × Loc × Loc) → ℝ × Loc × Loc
  | [] => x
  | y :: ys => minByFirst (if y.1 < x.1 then y else x) ys

/-- The `min(distances, ...)` computation of the meeting-point pass: the
minimum of the four endpoint-to-endpoint distances between segments `i` and
`j`, with the tags recording which endpoints realised it. -/
def closestEndpointPair (line_i line_j : Line) : ℝ × Loc × Loc :=
  minByFirst (distance line_i.start_point line_j.start_point, Loc.start, Loc.start)
    [(distance line_i.start_point line_j.end_point, Loc.start, Loc.end'),
     (distance line_i.end_point line_j.start_point, Loc.end', Loc.start),
     (distance line_i.end_point line_j.end_point, Loc.end', Loc.end')]

/-- One inner-loop iteration of the meeting-point pass for the ordered pair
`(i, j)`: `none` when the pair is skipped (same index, `j` not strictly
shorter, parallel, or minimum distance beyond the tolerance); otherwise the
endpoint of `i` the meeting is recorded at, together with the list entry. -/
def meetingEntry (lines : List Line) (line_lengths : List ℝ) (tip_tolerance : ℝ)
    (i j : ℕ) : Option (Loc × (ℕ × Loc)) :=
  if i = j then none
  else if line_lengths.getD i 0 ≤ line_lengths.getD j 0 then none
  else if are_lines_parallel (lineAt lines i) (lineAt lines j) 5 then none
  else
    let m := closestEndpointPair (lineAt lines i) (lineAt lines j)
    if m.1 ≤ tip_tolerance then some (m.2.1, (j, m.2.2)) else none

/-- The meeting-point pass result for segment `i`: the `j` loop in order,
each accepted `j` appended to the list of the endpoint of `i` that realised
the minimum distance. -/
def meetsOf (lines : List Line) (line_lengths : List ℝ) (tip_tolerance : ℝ)
    (i : ℕ) : Meets where
  start := (List.range lines.length).filterMap fun j =>
    match meetingEntry lines line_lengths tip_tolerance i j with
    | some (Loc.start, e) => some e
    | _ => none
  end' := (List.range lines.length).filterMap fun j =>
    match meetingEntry lines line_lengths tip_tolerance i j with
    | some (Loc.end', e) => some e
    | _ => none

/-- The conjunction of conditions under which `check_symmetrical_lines`
accepts the candidate pair `(line_j_idx, line_k_idx)`: neither barb already
consumed, barb lengths within `barb_length_diff_max`, both barb-to-shaft
angles at most `arrow_angle_max`, and the two angles within
`barb_angle_diff_max` of each other. -/
def barbPairOK (shaft_line : Line) (lines : List Line) (line_lengths : List ℝ)
    (used_barbs : Finset ℕ) (arrow_config : ArrowDetectionConfig)
    (line_j_idx line_k_idx : ℕ) : Prop :=
  line_j_idx ∉ used_barbs ∧ line_k_idx ∉ used_barbs ∧
  |line_lengths.getD line_j_idx 0 - line_lengths.getD line_k_idx 0| ≤
    arrow_config.barb_length_diff_max ∧
  angle_between shaft_line (lineAt lines line_j_idx) ≤ arrow_config.arrow_angle_max ∧
  angle_between shaft_line (lineAt lines line_k_idx) ≤ arrow_config.arrow_angle_max ∧
  |angle_between shaft_line (lineAt lines line_j_idx) -
    angle_between shaft_line (lineAt lines line_k_idx)| ≤ arrow_config.barb_angle_diff_max

/-- The inner `idx2` loop of `check_symmetrical_lines`: the first entry of the
list forming an acceptable pair with the fixed first candidate `j`. -/
def findPartner (shaft_line : Line) (lines : List Line) (line_lengths : List ℝ)
    (used_barbs : Finset ℕ) (arrow_config : ArrowDetectionConfig)
    (j : ℕ × Loc) : List (ℕ × Loc) → Option ℕ
  | [] => none
  | k :: rest =>
      if barbPairOK shaft_line lines line_lengths used_barbs arrow_config j.1 k.1
      then some k.1
      else findPartner shaft_line lines line_lengths used_barbs arrow_config j rest

/-- The outer `idx1` loop of `check_symmetrical_lines`: enumerate candidates
in list order, pairing each with the remaining later entries, and return the
first acceptable pair. -/
def searchBarbPairs (shaft_line : Line) (lines : List Line) (line_lengths : List ℝ)
    (used_barbs : Finset ℕ) (arrow_config : ArrowDetectionConfig) :
    List (ℕ × Loc) → Option (ℕ × ℕ)
  | [] => none
  | j :: rest =>
      match findPartner shaft_line lines line_lengths used_barbs arrow_config j rest with
      | some k => some (j.1, k)
      | none => searchBarbPairs shaft_line lines line_lengths used_barbs arrow_config rest

/-- Function `check_symmetrical_lines`: among the segments meeting one
endpoint of the shaft, find the first pair (in enumeration order) satisfying
the symmetry conditions; `none` when fewer than two segments meet there or no
pair qualifies. -/
def check_symmetrical_lines (shaft_line : Line) (meeting_line_indices : List (ℕ × Loc))
    (lines : List Line) (line_lengths : List ℝ) (used_barbs : Finset ℕ)
    (arrow_config : ArrowDetectionConfig) : Option (ℕ × ℕ) :=
  if meeting_line_indices.length < 2 then none
  else searchBarbPairs shaft_line lines line_lengths used_barbs arrow_config
    meeting_line_indices

/-- One endpoint check of the symmetry-classification pass: when at least two
segments meet segment `i` at the given endpoint and a symmetric pair is found,
append the arrow and mark both barbs consumed. -/
def detectStep (lines : List Line) (line_lengths : List ℝ)
    (arrow_config : ArrowDetectionConfig) (i : ℕ) (ml : List (ℕ × Loc))
    (tip : Point) (dir : Loc) (st : List Arrow × Finset ℕ) :
    List Arrow × Finset ℕ :=
  if 2 ≤ ml.length then
    match check_symmetrical_lines (lineAt lines i) ml lines line_lengths st.2 arrow_config with
    | some (barb1_idx, barb2_idx) =>
        (st.1 ++ [⟨i, barb1_idx, barb2_idx, tip, dir⟩],
         insert barb1_idx (insert barb2_idx st.2))
    | none => st
  else st

/-- The loop body of the symmetry-classification pass for segment `i`: the
start endpoint is checked before the end endpoint, threading the state. -/
def detectIter (lines : List Line) (line_lengths : List ℝ)
    (arrow_config : ArrowDetectionConfig) (st : List Arrow × Finset ℕ)
    (i : ℕ) : List Arrow × Finset ℕ :=
  let m := meetsOf lines line_lengths arrow_config.tip_point_tolerance i
  detectStep lines line_lengths arrow_config i m.end'
    (lineAt lines i).end_point Loc.end'
    (detectStep lines line_lengths arrow_config i m.start
      (lineAt lines i).start_point Loc.start st)

/-- Function `detect_arrows_in_drawing`: the three passes of arrow detection.
Pass 1 caches segment lengths, pass 2 is `meetsOf`, pass 3 folds over the
segments in index order, checking the start endpoint before the end endpoint
and threading the consumed-barb set. -/
def detect_arrows_in_drawing (lines : List Line) (config : Config) : List Arrow :=
  let arrow_config := config.ARROW_DETECTION
  let line_lengths := lines.map length
  ((List.range lines.length).foldl (detectIter lines line_lengths arrow_config)
    ([], ∅)).1

/-- Function `create_arrow_leaders`: wrap each arrow into a leader whose
indicator position is computed by `get_leader_position` from the shaft and
the direction flag. -/
def create_arrow_leaders (lines : List Line) (arrows : List Arrow) : List ArrowLeader :=
  arrows.map fun arrow =>
    { arrow := arrow
      leader_position := get_leader_position (lineAt lines arrow.shaft) arrow.direction
      line_chain := [arrow.shaft]
      matched_text := none
      matched_boundaries := [] }

/-- Default leader used to totalise list indexing. -/
def defaultLeader : ArrowLeader :=
  ⟨⟨0, 0, 0, ⟨0, 0⟩, Loc.start⟩, ⟨0, 0⟩, [], none, []⟩

/-- The leader with index `p` in a leader list. -/
def leaderAt (arrow_leaders : List ArrowLeader) (p : ℕ) : ArrowLeader :=
  arrow_leaders.getD p defaultLeader

/-- The per-leader scan of `match_texts_to_arrows`: fold over the text list
keeping the index of the running strict minimum among texts whose distance is
below `max_distance`.  The Python `min_dist = float('inf')` initial state is
modelled by the accumulator `none` (every finite distance beats infinity). -/
def accBeats (dist : ℝ) (acc : Option (ℝ × ℕ)) : Prop :=
  match acc with
  | none => True
  | some a => dist < a.1

/-- The running `dist < min_dist` comparison of the scan; the `none`
accumulator stands for the initial `min_dist = float('inf')`, which every
distance beats. -/
def closestTextGo (leader_position : Point) (max_distance : ℝ) :
    List TextEntity → ℕ → Option (ℝ × ℕ) → Option (ℝ × ℕ)
  | [], _, acc => acc
  | text :: rest, idx, acc =>
      let dist := distance leader_position text.position
      closestTextGo leader_position max_distance rest (idx + 1)
        (if dist < max_distance ∧ accBeats dist acc then some (dist, idx) else acc)

/-- The text index selected for a leader position by the scan of
`match_texts_to_arrows` (its `closest_text` variable), if any. -/
def closest_text (leader_position : Point) (texts : List TextEntity)
    (max_distance : ℝ) : Option ℕ :=
  (closestTextGo leader_position max_distance texts 0 none).map fun a => a.2

/-- Function `match_texts_to_arrows`: assign each leader the closest text
within `max_distance` (leaders left untouched when none qualifies), and append
to each text the back references of the leaders that selected it, in leader
order. -/
def match_texts_to_arrows (arrow_leaders : List ArrowLeader) (texts : List TextEntity)
    (config : Config) : List ArrowLeader × List TextEntity :=
  let max_distance := config.LEADER_ARROW_MATCHING.max_distance
  let leaders' := arrow_leaders.map fun leader =>
    match closest_text leader.leader_position texts max_distance with
    | some t => { leader with matched_text := some t }
    | none => leader
  let texts' := texts.mapIdx fun t_idx text =>
    { text with matched_arrows := text.matched_arrows ++
        ((List.range arrow_leaders.length).filter fun p =>
          closest_text (leaderAt arrow_leaders p).leader_position texts max_distance =
            some t_idx) }
  (leaders', texts')

/-- The `arrow_lines` set of `detect_boundary_lines`: the indices of every
segment used as a shaft or barb of some leader's arrow. -/
def arrowLinesOf (arrow_leaders : List ArrowLeader) : Finset ℕ :=
  arrow_leaders.foldl (fun s leader =>
    insert leader.arrow.shaft (insert leader.arrow.left_barb
      (insert leader.arrow.right_barb s))) ∅

/-- The per-candidate test of `detect_boundary_lines`: segment `j` qualifies
as a boundary for `leader` when it is not an arrow segment, the closer of its
endpoints is within `max_distance_to_arrow` of the arrow tip, and its angle
to the arrow shaft lies in the closed perpendicularity band. -/
def boundaryQualifies (arrow_lines : Finset ℕ) (lines : List Line)
    (boundary_config : LeaderBoundaryMatchingConfig) (leader : ArrowLeader)
    (j : ℕ) : Prop :=
  j ∉ arrow_lines ∧
  min (distance leader.arrow.tip_point (lineAt lines j).start_point)
      (distance leader.arrow.tip_point (lineAt lines j).end_point) ≤
    boundary_config.max_distance_to_arrow ∧
  boundary_config.perpendicular_angle_min ≤
    angle_between (lineAt lines leader.arrow.shaft) (lineAt lines j) ∧
  angle_between (lineAt lines leader.arrow.shaft) (lineAt lines j) ≤
    boundary_config.perpendicular_angle_max

/-- Function `detect_boundary_lines`: for each leader, append the qualifying
segments (in index order) to its boundary list; also return the concatenated
list of all matches, as the function's return value does. -/
def detect_boundary_lines (arrow_leaders : List ArrowLeader) (lines : List Line)
    (config : Config) : List ArrowLeader × List ℕ :=
  let boundary_config := config.LEADER_BOUNDARY_MATCHING
  let arrow_lines := arrowLinesOf arrow_leaders
  let leaders' := arrow_leaders.map fun leader =>
    { leader with matched_boundaries := leader.matched_boundaries ++
        ((List.range lines.length).filter fun j =>
          boundaryQualifies arrow_lines lines boundary_config leader j) }
  let boundary_lines := arrow_leaders.flatMap fun leader =>
    (List.range lines.length).filter fun j =>
      boundaryQualifies arrow_lines lines boundary_config leader j
  (leaders', boundary_lines)

/-- All barb indices of a list of arrows, with multiplicity. -/
def barbIndices (arrows : List Arrow) : List ℕ :=
  arrows.flatMap fun a => [a.left_barb, a.right_barb]

/-- All segment indices consumed by a list of arrows in any role (shaft,
left barb, right barb), with multiplicity. -/
def roleIndices (arrows : List Arrow) : List ℕ :=
  arrows.flatMap fun a => [a.shaft, a.left_barb, a.right_barb]

/-- Default text entity used to totalise list indexing. -/
def defaultText : TextEntity := ⟨⟨0, 0⟩, []⟩

/-- The text entity with index `t` in a text list. -/
def textAt (texts : List TextEntity) (t : ℕ) : TextEntity := texts.getD t defaultText

/-- The arrow with index `p` in an arrow list. -/
def arrowAt (arrows : List Arrow) (p : ℕ) : Arrow :=
  arrows.getD p ⟨0, 0, 0, ⟨0, 0⟩, Loc.start⟩

/-- The three-segment test drawing of the spec: a shaft `(10,0) → (0,0)` and
barbs `(0,0) → (-2,1)` and `(0,0) → (-2,-1)` meeting at the origin. -/
def threeLines : List Line :=
  [⟨⟨10, 0⟩, ⟨0, 0⟩⟩, ⟨⟨0, 0⟩, ⟨-2, 1⟩⟩, ⟨⟨0, 0⟩, ⟨-2, -1⟩⟩]

/-- A dimension line with an arrow head at each end: one shaft
`(0,0) → (10,0)` carrying a symmetric barb pair at its start point (indices
`1`, `2`) and another at its end point (indices `3`, `4`). -/
def fiveLines : List Line :=
  [⟨⟨0, 0⟩, ⟨10, 0⟩⟩, ⟨⟨0, 0⟩, ⟨2, 1⟩⟩, ⟨⟨0, 0⟩, ⟨2, -1⟩⟩,
   ⟨⟨10, 0⟩, ⟨12, 1⟩⟩, ⟨⟨10, 0⟩, ⟨12, -1⟩⟩]

/-- Concrete drawing for the boundary-detection witness: an arrow on segments
`0`, `1`, `2` with tip `(10,0)`, plus a vertical candidate segment (index `3`)
one unit from the tip and exactly perpendicular to the shaft. -/
def boundaryLines : List Line :=
  [⟨⟨0, 0⟩, ⟨10, 0⟩⟩, ⟨⟨10, 0⟩, ⟨8, 1⟩⟩, ⟨⟨10, 0⟩, ⟨8, -1⟩⟩,
   ⟨⟨10, 1⟩, ⟨10, -1⟩⟩]

/-- The leader of the boundary-detection witness. -/
def boundaryLeader : ArrowLeader :=
  ⟨⟨0, 1, 2, ⟨10, 0⟩, Loc.end'⟩, ⟨0, 0⟩, [0], none, []⟩

/-- Texts for the text-matching witness: one close to both witness leaders,
one far beyond the cutoff. -/
def textsW : List TextEntity := [⟨⟨3, 4⟩, []⟩, ⟨⟨30, 0⟩, []⟩]

/-- Two leaders for the text-matching witness, both closest to text `0`. -/
def leadersW : List ArrowLeader :=
  [{ defaultLeader with leader_position := ⟨0, 0⟩ },
   { defaultLeader with leader_position := ⟨3, 3⟩ }]

end

section Lemmas

open Real

open scoped Classical

lemma sqrt_num {a b : ℝ} (hb : 0 ≤ b) (h : b * b = a) : Real.sqrt a = b := by
  rw [← h, Real.sqrt_mul_self hb]

lemma arccos_antitone {x y : ℝ} (h : x ≤ y) : Real.arccos y ≤ Real.arccos x := by
  rw [Real.arccos_eq_pi_div_two_sub_arcsin, Real.arccos_eq_pi_div_two_sub_arcsin]
  have := Real.monotone_arcsin h
  linarith

lemma arccos_le_of_cos_le {c θ : ℝ} (h0 : 0 ≤ θ) (hπ : θ ≤ Real.pi)
    (h : Real.cos θ ≤ c) : Real.arccos c ≤ θ := by
  calc Real.arccos c ≤ Real.arccos (Real.cos θ) := arccos_antitone h
  _ = θ := Real.arccos_cos h0 hπ

lemma le_arccos_of_le_cos {c θ : ℝ} (h0 : 0 ≤ θ) (hπ : θ ≤ Real.pi)
    (h : c ≤ Real.cos θ) : θ ≤ Real.arccos c := by
  calc θ = Real.arccos (Real.cos θ) := (Real.arccos_cos h0 hπ).symm
  _ ≤ Real.arccos c := arccos_antitone h

lemma clamp_of_mem {c : ℝ} (h1 : -1 ≤ c) (h2 : c ≤ 1) :
    max (-1 : ℝ) (min 1 c) = c := by
  rw [min_eq_right h2, max_eq_right h1]

lemma sqrt_five_pos : (0 : ℝ) < Real.sqrt 5 :=
  Real.sqrt_pos.mpr (by norm_num)

lemma two_div_sqrt_five_nonneg : (0 : ℝ) ≤ 2 / Real.sqrt 5 :=
  div_nonneg (by norm_num) (Real.sqrt_nonneg 5)

lemma two_div_sqrt_five_le_one : 2 / Real.sqrt 5 ≤ 1 := by
  rw [div_le_one sqrt_five_pos]
  exact Real.le_sqrt_of_sq_le (by norm_num)

lemma half_le_two_div_sqrt_five : (1 : ℝ) / 2 ≤ 2 / Real.sqrt 5 := by
  rw [div_le_div_iff (by norm_num) sqrt_five_pos]
  have : Real.sqrt 5 ≤ 4 := (Real.sqrt_le_left (by norm_num)).mpr (by norm_num)
  linarith

lemma two_div_sqrt_five_le_cos_pi_div_36 :
    2 / Real.sqrt 5 ≤ Real.cos (Real.pi / 36) := by
  have hstep : Real.cos (Real.pi / 8) ≤ Real.cos (Real.pi / 36) := by
    have hπ := Real.pi_pos
    exact Real.cos_le_cos_of_nonneg_of_le_pi (by positivity) (by linarith) (by linarith)
  have hsqrt2 : (6 : ℝ) / 5 ≤ Real.sqrt 2 := Real.le_sqrt_of_sq_le (by norm_num)
  have h8 : 2 / Real.sqrt 5 ≤ Real.cos (Real.pi / 8) := by
    rw [Real.cos_pi_div_eight]
    have h1 : (2 : ℝ) / Real.sqrt 5 = Real.sqrt (4 / 5) := by
      rw [Real.sqrt_div (by norm_num) 5, sqrt_num (a := (4 : ℝ)) (b := 2) (by norm_num) (by norm_num)]
    have h2 : Real.sqrt (2 + Real.sqrt 2) / 2 = Real.sqrt ((2 + Real.sqrt 2) / 4) := by
      rw [Real.sqrt_div (by positivity) 4,
        sqrt_num (a := (4 : ℝ)) (b := 2) (by norm_num) (by norm_num)]
    rw [h1, h2]
    exact Real.sqrt_le_sqrt (by linarith)
  linarith

lemma cos_five_pi_div_12_le_half : Real.cos (5 * Real.pi / 12) ≤ 1 / 2 := by
  have hπ := Real.pi_pos
  have : Real.cos (5 * Real.pi / 12) ≤ Real.cos (Real.pi / 3) :=
    Real.cos_le_cos_of_nonneg_of_le_pi (by positivity) (by linarith) (by linarith)
  rw [Real.cos_pi_div_three] at this
  exact this

/-- The recurring barb angle of the concrete inputs (the angle between a
shaft and a barb with cosine `2 / √5`, about `26.57°`), in degrees. -/
lemma arccos_two_div_sqrt_five_deg_le_75 :
    Real.arccos (2 / Real.sqrt 5) * 180 / Real.pi ≤ 75 := by
  have hπ := Real.pi_pos
  have h1 : Real.arccos (2 / Real.sqrt 5) ≤ 5 * Real.pi / 12 := by
    refine arccos_le_of_cos_le (by positivity) (by linarith) ?_
    have := cos_five_pi_div_12_le_half
    have := half_le_two_div_sqrt_five
    linarith
  have h2 : (5 * Real.pi / 12) * 180 / Real.pi = 75 := by
    field_simp
    ring
  calc Real.arccos (2 / Real.sqrt 5) * 180 / Real.pi
      ≤ (5 * Real.pi / 12) * 180 / Real.pi := by gcongr
  _ = 75 := h2

lemma five_le_arccos_two_div_sqrt_five_deg :
    5 ≤ Real.arccos (2 / Real.sqrt 5) * 180 / Real.pi := by
  have hπ := Real.pi_pos
  have h1 : Real.pi / 36 ≤ Real.arccos (2 / Real.sqrt 5) := by
    refine le_arccos_of_le_cos (by positivity) (by linarith) ?_
    exact two_div_sqrt_five_le_cos_pi_div_36
  have h2 : (Real.pi / 36) * 180 / Real.pi = 5 := by
    field_simp
    ring
  calc (5 : ℝ) = (Real.pi / 36) * 180 / Real.pi := h2.symm
  _ ≤ Real.arccos (2 / Real.sqrt 5) * 180 / Real.pi := by gcongr

lemma arccos_two_div_sqrt_five_deg_le_90 :
    Real.arccos (2 / Real.sqrt 5) * 180 / Real.pi ≤ 90 := by
  have hπ := Real.pi_pos
  have h1 : Real.arccos (2 / Real.sqrt 5) ≤ Real.pi / 2 :=
    Real.arccos_le_pi_div_two.mpr two_div_sqrt_five_nonneg
  have h2 : (Real.pi / 2) * 180 / Real.pi = 90 := by
    field_simp
    ring
  calc Real.arccos (2 / Real.sqrt 5) * 180 / Real.pi
      ≤ (Real.pi / 2) * 180 / Real.pi := by gcongr
  _ = 90 := h2

lemma angle_between_eval {line1 line2 : Line} {d m1 m2 : ℝ}
    (hd : dot_product (direction_vector line1) (direction_vector line2) = d)
    (h1 : (direction_vector line1).1 ^ 2 + (direction_vector line1).2 ^ 2 = m1 * m1)
    (h2 : (direction_vector line2).1 ^ 2 + (direction_vector line2).2 ^ 2 = m2 * m2)
    (hm1 : 0 < m1) (hm2 : 0 < m2) :
    angle_between line1 line2 =
      Real.arccos (max (-1) (min 1 (d / (m1 * m2)))) * 180 / Real.pi := by
  rw [angle_between]
  simp only [hd, h1, h2, sqrt_num (le_of_lt hm1) rfl, sqrt_num (le_of_lt hm2) rfl]
  rw [if_neg]
  push_neg
  exact ⟨ne_of_gt hm1, ne_of_gt hm2⟩

/-- The angle between two segments whose direction vectors have dot product
`20` and squared magnitudes `100` and `5` (all shaft-to-barb pairs of the
concrete inputs are of this shape). -/
lemma angle_between_shaft_barb {line1 line2 : Line}
    (hd : dot_product (direction_vector line1) (direction_vector line2) = 20)
    (h1 : (direction_vector line1).1 ^ 2 + (direction_vector line1).2 ^ 2 = 100)
    (h2 : (direction_vector line2).1 ^ 2 + (direction_vector line2).2 ^ 2 = 5) :
    angle_between line1 line2 = Real.arccos (2 / Real.sqrt 5) * 180 / Real.pi := by
  have h5 : Real.sqrt 5 * Real.sqrt 5 = 5 := Real.mul_self_sqrt (by norm_num)
  have e1 : angle_between line1 line2 =
      Real.arccos (max (-1) (min 1 (20 / (10 * Real.sqrt 5)))) * 180 / Real.pi := by
    refine angle_between_eval hd (by rw [h1]; norm_num) (by rw [h2, h5]) (by norm_num)
      sqrt_five_pos
  have e2 : (20 : ℝ) / (10 * Real.sqrt 5) = 2 / Real.sqrt 5 := by
    rw [div_eq_div_iff (by positivity) (ne_of_gt sqrt_five_pos)]
    ring
  rw [e1, e2, clamp_of_mem (by linarith [two_div_sqrt_five_nonneg]) two_div_sqrt_five_le_one]

/-- A pair with the recurring shaft-to-barb angle is never classified as
parallel under the default `5.0` degree threshold. -/
lemma not_parallel_of_shaft_barb_angle {line1 line2 : Line}
    (h : angle_between line1 line2 = Real.arccos (2 / Real.sqrt 5) * 180 / Real.pi) :
    ¬ are_lines_parallel line1 line2 5 := by
  rw [are_lines_parallel, h]
  push_neg
  constructor
  · exact five_le_arccos_two_div_sqrt_five_deg
  · linarith [arccos_two_div_sqrt_five_deg_le_90]

lemma distance_eval {p q : Point} {c : ℝ}
    (h : (q.x - p.x) * (q.x - p.x) + (q.y - p.y) * (q.y - p.y) = c * c)
    (hc : 0 ≤ c) : distance p q = c := by
  rw [distance]
  exact sqrt_num hc h.symm

lemma distance_sqrt {p q : Point} {a : ℝ}
    (h : (q.x - p.x) * (q.x - p.x) + (q.y - p.y) * (q.y - p.y) = a) :
    distance p q = Real.sqrt a := by
  rw [distance, h]

lemma length_eval {l : Line} {c : ℝ}
    (h : (l.end_point.x - l.start_point.x) * (l.end_point.x - l.start_point.x) +
      (l.end_point.y - l.start_point.y) * (l.end_point.y - l.start_point.y) = c * c)
    (hc : 0 ≤ c) : length l = c := by
  rw [length]
  exact sqrt_num hc h.symm

lemma length_sqrt {l : Line} {a : ℝ}
    (h : (l.end_point.x - l.start_point.x) * (l.end_point.x - l.start_point.x) +
      (l.end_point.y - l.start_point.y) * (l.end_point.y - l.start_point.y) = a) :
    length l = Real.sqrt a := by
  rw [length, h]

lemma sqrt_five_lt_ten : Real.sqrt 5 < 10 := by
  rw [Real.sqrt_lt' (by norm_num)]
  norm_num

lemma not_sqrt_145_lt_ten : ¬ Real.sqrt 145 < 10 := by
  rw [Real.sqrt_lt' (by norm_num)]
  norm_num

lemma not_sqrt_lt_zero (a : ℝ) : ¬ Real.sqrt a < 0 :=
  not_lt.mpr (Real.sqrt_nonneg a)

/-- Shape of the four-endpoint minimum where the third candidate is the
(unique) zero distance: Python's stable `min` lands on it. -/
lemma minByFirst_third {a b c : ℝ} (t1 t2 t3 t4 : Loc × Loc)
    (hb : ¬ b < a) (ha : 0 < a) (hc : ¬ c < 0) :
    minByFirst (a, t1) [(b, t2), (0, t3), (c, t4)] = (0, t3) := by
  rw [minByFirst, if_neg hb, minByFirst, if_pos ha, minByFirst, if_neg hc, minByFirst]

/-- Shape of the four-endpoint minimum where the first candidate is already
the zero distance: no later candidate strictly beats it. -/
lemma minByFirst_first {b c d : ℝ} (t1 t2 t3 t4 : Loc × Loc)
    (hb : ¬ b < 0) (hc : ¬ c < 0) (hd : ¬ d < 0) :
    minByFirst ((0 : ℝ), t1) [(b, t2), (c, t3), (d, t4)] = (0, t1) := by
  rw [minByFirst, if_neg hb, minByFirst, if_neg hc, minByFirst, if_neg hd, minByFirst]

lemma meetingEntry_self (lines : List Line) (lens : List ℝ) (tol : ℝ) (i : ℕ) :
    meetingEntry lines lens tol i i = none := by
  rw [meetingEntry, if_pos rfl]

lemma meetingEntry_of_le {i j : ℕ} (lines : List Line) (lens : List ℝ) (tol : ℝ)
    (h : ¬ i = j) (hle : lens.getD i 0 ≤ lens.getD j 0) :
    meetingEntry lines lens tol i j = none := by
  rw [meetingEntry, if_neg h, if_pos hle]

lemma meetsOf_eq_nil {lines : List Line} {lens : List ℝ} {tol : ℝ} {i : ℕ}
    (h : ∀ j ∈ List.range lines.length, meetingEntry lines lens tol i j = none) :
    meetsOf lines lens tol i = ⟨[], []⟩ := by
  have h1 : ∀ (sel : Loc),
      ((List.range lines.length).filterMap fun j =>
        match meetingEntry lines lens tol i j with
        | some (Loc.start, e) => some e
        | _ => none) = ([] : List (ℕ × Loc)) := by
    intro _
    rw [List.filterMap_eq_nil_iff]
    intro j hj
    rw [h j hj]
  rw [meetsOf]
  refine congrArg₂ Meets.mk ?_ ?_
  · rw [List.filterMap_eq_nil_iff]
    intro j hj
    rw [h j hj]
  · rw [List.filterMap_eq_nil_iff]
    intro j hj
    rw [h j hj]

lemma lineAt_three_0 : lineAt threeLines 0 = ⟨⟨10, 0⟩, ⟨0, 0⟩⟩ := rfl

lemma lineAt_three_1 : lineAt threeLines 1 = ⟨⟨0, 0⟩, ⟨-2, 1⟩⟩ := rfl

lemma lineAt_three_2 : lineAt threeLines 2 = ⟨⟨0, 0⟩, ⟨-2, -1⟩⟩ := rfl

lemma map_length_three : threeLines.map length = [10, Real.sqrt 5, Real.sqrt 5] := by
  have h0 : length (⟨⟨10, 0⟩, ⟨0, 0⟩⟩ : Line) = 10 := length_eval (by norm_num) (by norm_num)
  have h1 : length (⟨⟨0, 0⟩, ⟨-2, 1⟩⟩ : Line) = Real.sqrt 5 := length_sqrt (by norm_num)
  have h2 : length (⟨⟨0, 0⟩, ⟨-2, -1⟩⟩ : Line) = Real.sqrt 5 := length_sqrt (by norm_num)
  simp only [threeLines, List.map_cons, List.map_nil, h0, h1, h2]

lemma ang3_1 : angle_between ⟨⟨10, 0⟩, ⟨0, 0⟩⟩ ⟨⟨0, 0⟩, ⟨-2, 1⟩⟩ =
    Real.arccos (2 / Real.sqrt 5) * 180 / Real.pi :=
  angle_between_shaft_barb (by norm_num [dot_product, direction_vector])
    (by norm_num [direction_vector]) (by norm_num [direction_vector])

lemma ang3_2 : angle_between ⟨⟨10, 0⟩, ⟨0, 0⟩⟩ ⟨⟨0, 0⟩, ⟨-2, -1⟩⟩ =
    Real.arccos (2 / Real.sqrt 5) * 180 / Real.pi :=
  angle_between_shaft_barb (by norm_num [dot_product, direction_vector])
    (by norm_num [direction_vector]) (by norm_num [direction_vector])

lemma cep3_01 : closestEndpointPair ⟨⟨10, 0⟩, ⟨0, 0⟩⟩ ⟨⟨0, 0⟩, ⟨-2, 1⟩⟩ =
    (0, Loc.end', Loc.start) := by
  have d1 : distance (⟨10, 0⟩ : Point) ⟨0, 0⟩ = 10 := distance_eval (by norm_num) (by norm_num)
  have d2 : distance (⟨10, 0⟩ : Point) ⟨-2, 1⟩ = Real.sqrt 145 := distance_sqrt (by norm_num)
  have d3 : distance (⟨0, 0⟩ : Point) ⟨0, 0⟩ = 0 := distance_eval (by norm_num) le_rfl
  have d4 : distance (⟨0, 0⟩ : Point) ⟨-2, 1⟩ = Real.sqrt 5 := distance_sqrt (by norm_num)
  rw [closestEndpointPair]
  dsimp only
  rw [d1, d2, d3, d4]
  exact minByFirst_third _ _ _ _ not_sqrt_145_lt_ten (by norm_num) (not_sqrt_lt_zero 5)

lemma cep3_02 : closestEndpointPair ⟨⟨10, 0⟩, ⟨0, 0⟩⟩ ⟨⟨0, 0⟩, ⟨-2, -1⟩⟩ =
    (0, Loc.end', Loc.start) := by
  have d1 : distance (⟨10, 0⟩ : Point) ⟨0, 0⟩ = 10 := distance_eval (by norm_num) (by norm_num)
  have d2 : distance (⟨10, 0⟩ : Point) ⟨-2, -1⟩ = Real.sqrt 145 := distance_sqrt (by norm_num)
  have d3 : distance (⟨0, 0⟩ : Point) ⟨0, 0⟩ = 0 := distance_eval (by norm_num) le_rfl
  have d4 : distance (⟨0, 0⟩ : Point) ⟨-2, -1⟩ = Real.sqrt 5 := distance_sqrt (by norm_num)
  rw [closestEndpointPair]
  dsimp only
  rw [d1, d2, d3, d4]
  exact minByFirst_third _ _ _ _ not_sqrt_145_lt_ten (by norm_num) (not_sqrt_lt_zero 5)

lemma me3_01 : meetingEntry threeLines [10, Real.sqrt 5, Real.sqrt 5] 0.1 0 1 =
    some (Loc.end', (1, Loc.start)) := by
  rw [meetingEntry]
  rw [if_neg (by decide : ¬ (0 = 1))]
  simp only [List.getD_cons_zero, List.getD_cons_succ]
  rw [if_neg (not_le.mpr sqrt_five_lt_ten)]
  rw [lineAt_three_0, lineAt_three_1]
  rw [if_neg (not_parallel_of_shaft_barb_angle ang3_1)]
  simp only [cep3_01]
  rw [if_pos (by norm_num : (0 : ℝ) ≤ 0.1)]

lemma me3_02 : meetingEntry threeLines [10, Real.sqrt 5, Real.sqrt 5] 0.1 0 2 =
    some (Loc.end', (2, Loc.start)) := by
  rw [meetingEntry]
  rw [if_neg (by decide : ¬ (0 = 2))]
  simp only [List.getD_cons_zero, List.getD_cons_succ]
  rw [if_neg (not_le.mpr sqrt_five_lt_ten)]
  rw [lineAt_three_0, lineAt_three_2]
  rw [if_neg (not_parallel_of_shaft_barb_angle ang3_2)]
  simp only [cep3_02]
  rw [if_pos (by norm_num : (0 : ℝ) ≤ 0.1)]

lemma meets3_0 : meetsOf threeLines [10, Real.sqrt 5, Real.sqrt 5] 0.1 0 =
    ⟨[], [(1, Loc.start), (2, Loc.start)]⟩ := by
  rw [meetsOf]
  rw [show List.range threeLines.length = [0, 1, 2] from rfl]
  refine congrArg₂ Meets.mk ?_ ?_
  · simp only [List.filterMap_cons, List.filterMap_nil, meetingEntry_self, me3_01, me3_02]
  · simp only [List.filterMap_cons, List.filterMap_nil, meetingEntry_self, me3_01, me3_02]

lemma sqrt_five_le_getD_three :
    ∀ j, j < 3 → Real.sqrt 5 ≤ [(10 : ℝ), Real.sqrt 5, Real.sqrt 5].getD j 0 := by
  intro j hj
  interval_cases j
  · simp only [List.getD_cons_zero]
    exact le_of_lt sqrt_five_lt_ten
  · simp only [List.getD_cons_succ, List.getD_cons_zero]
    exact le_rfl
  · simp only [List.getD_cons_succ, List.getD_cons_zero]
    exact le_rfl

lemma meets3_1 : meetsOf threeLines [10, Real.sqrt 5, Real.sqrt 5] 0.1 1 = ⟨[], []⟩ := by
  refine meetsOf_eq_nil ?_
  intro j hj
  rw [List.mem_range] at hj
  rcases eq_or_ne 1 j with h | h
  · rw [← h]
    exact meetingEntry_self _ _ _ _
  · refine meetingEntry_of_le _ _ _ h ?_
    simp only [List.getD_cons_succ, List.getD_cons_zero]
    exact sqrt_five_le_getD_three j hj

lemma meets3_2 : meetsOf threeLines [10, Real.sqrt 5, Real.sqrt 5] 0.1 2 = ⟨[], []⟩ := by
  refine meetsOf_eq_nil ?_
  intro j hj
  rw [List.mem_range] at hj
  rcases eq_or_ne 2 j with h | h
  · rw [← h]
    exact meetingEntry_self _ _ _ _
  · refine meetingEntry_of_le _ _ _ h ?_
    simp only [List.getD_cons_succ, List.getD_cons_zero]
    exact sqrt_five_le_getD_three j hj

lemma detectStep_nil (lines : List Line) (lens : List ℝ) (cfg : ArrowDetectionConfig)
    (i : ℕ) (tip : Point) (dir : Loc) (st : List Arrow × Finset ℕ) :
    detectStep lines lens cfg i [] tip dir st = st := by
  rw [detectStep, if_neg (by norm_num)]

lemma bpOK3 : barbPairOK (lineAt threeLines 0) threeLines [10, Real.sqrt 5, Real.sqrt 5]
    ∅ CONFIG.ARROW_DETECTION 1 2 := by
  refine ⟨Finset.not_mem_empty 1, Finset.not_mem_empty 2, ?_, ?_, ?_, ?_⟩
  · simp only [List.getD_cons_succ, List.getD_cons_zero, sub_self, abs_zero]
    norm_num [CONFIG]
  · rw [lineAt_three_0, lineAt_three_1, ang3_1]
    have h : CONFIG.ARROW_DETECTION.arrow_angle_max = 75 := by norm_num [CONFIG]
    rw [h]
    exact arccos_two_div_sqrt_five_deg_le_75
  · rw [lineAt_three_0, lineAt_three_2, ang3_2]
    have h : CONFIG.ARROW_DETECTION.arrow_angle_max = 75 := by norm_num [CONFIG]
    rw [h]
    exact arccos_two_div_sqrt_five_deg_le_75
  · rw [lineAt_three_0, lineAt_three_1, lineAt_three_2, ang3_1, ang3_2, sub_self, abs_zero]
    norm_num [CONFIG]

lemma step3_end (tip : Point) :
    detectStep threeLines [10, Real.sqrt 5, Real.sqrt 5] CONFIG.ARROW_DETECTION 0
      [(1, Loc.start), (2, Loc.start)] tip Loc.end' ([], ∅) =
    ([⟨0, 1, 2, tip, Loc.end'⟩], insert 1 (insert 2 ∅)) := by
  rw [detectStep, if_pos (by norm_num : 2 ≤ List.length [(1, Loc.start), (2, Loc.start)])]
  rw [check_symmetrical_lines,
    if_neg (by norm_num : ¬ List.length [(1, Loc.start), (2, Loc.start)] < 2)]
  rw [searchBarbPairs, findPartner, if_pos bpOK3]
  rfl

lemma iter3_0 : detectIter threeLines [10, Real.sqrt 5, Real.sqrt 5] CONFIG.ARROW_DETECTION
    ([], ∅) 0 = ([⟨0, 1, 2, ⟨0, 0⟩, Loc.end'⟩], insert 1 (insert 2 ∅)) := by
  rw [detectIter, show CONFIG.ARROW_DETECTION.tip_point_tolerance = (0.1 : ℝ) from rfl,
    meets3_0]
  dsimp only
  rw [detectStep_nil, step3_end]
  rfl

lemma iter3_skip (st : List Arrow × Finset ℕ) (i : ℕ)
    (h : meetsOf threeLines [10, Real.sqrt 5, Real.sqrt 5] 0.1 i = ⟨[], []⟩) :
    detectIter threeLines [10, Real.sqrt 5, Real.sqrt 5] CONFIG.ARROW_DETECTION st i = st := by
  rw [detectIter, show CONFIG.ARROW_DETECTION.tip_point_tolerance = (0.1 : ℝ) from rfl, h]
  dsimp only
  rw [detectStep_nil, detectStep_nil]

/-- Full evaluation of arrow detection on the three-segment test drawing. -/
lemma detect3_eval : detect_arrows_in_drawing threeLines CONFIG =
    [⟨0, 1, 2, ⟨0, 0⟩, Loc.end'⟩] := by
  simp only [detect_arrows_in_drawing]
  rw [map_length_three]
  rw [show List.range threeLines.length = [0, 1, 2] from rfl]
  rw [List.foldl_cons, iter3_0, List.foldl_cons, iter3_skip _ 1 meets3_1,
    List.foldl_cons, iter3_skip _ 2 meets3_2, List.foldl_nil]

lemma lineAt_five_0 : lineAt fiveLines 0 = ⟨⟨0, 0⟩, ⟨10, 0⟩⟩ := rfl

lemma lineAt_five_1 : lineAt fiveLines 1 = ⟨⟨0, 0⟩, ⟨2, 1⟩⟩ := rfl

lemma lineAt_five_2 : lineAt fiveLines 2 = ⟨⟨0, 0⟩, ⟨2, -1⟩⟩ := rfl

lemma lineAt_five_3 : lineAt fiveLines 3 = ⟨⟨10, 0⟩, ⟨12, 1⟩⟩ := rfl

lemma lineAt_five_4 : lineAt fiveLines 4 = ⟨⟨10, 0⟩, ⟨12, -1⟩⟩ := rfl

lemma map_length_five : fiveLines.map length =
    [10, Real.sqrt 5, Real.sqrt 5, Real.sqrt 5, Real.sqrt 5] := by
  have h0 : length (⟨⟨0, 0⟩, ⟨10, 0⟩⟩ : Line) = 10 := length_eval (by norm_num) (by norm_num)
  have h1 : length (⟨⟨0, 0⟩, ⟨2, 1⟩⟩ : Line) = Real.sqrt 5 := length_sqrt (by norm_num)
  have h2 : length (⟨⟨0, 0⟩, ⟨2, -1⟩⟩ : Line) = Real.sqrt 5 := length_sqrt (by norm_num)
  have h3 : length (⟨⟨10, 0⟩, ⟨12, 1⟩⟩ : Line) = Real.sqrt 5 := length_sqrt (by norm_num)
  have h4 : length (⟨⟨10, 0⟩, ⟨12, -1⟩⟩ : Line) = Real.sqrt 5 := length_sqrt (by norm_num)
  simp only [fiveLines, List.map_cons, List.map_nil, h0, h1, h2, h3, h4]

lemma ang5_1 : angle_between ⟨⟨0, 0⟩, ⟨10, 0⟩⟩ ⟨⟨0, 0⟩, ⟨2, 1⟩⟩ =
    Real.arccos (2 / Real.sqrt 5) * 180 / Real.pi :=
  angle_between_shaft_barb (by norm_num [dot_product, direction_vector])
    (by norm_num [direction_vector]) (by norm_num [direction_vector])

lemma ang5_2 : angle_between ⟨⟨0, 0⟩, ⟨10, 0⟩⟩ ⟨⟨0, 0⟩, ⟨2, -1⟩⟩ =
    Real.arccos (2 / Real.sqrt 5) * 180 / Real.pi :=
  angle_between_shaft_barb (by norm_num [dot_product, direction_vector])
    (by norm_num [direction_vector]) (by norm_num [direction_vector])

lemma ang5_3 : angle_between ⟨⟨0, 0⟩, ⟨10, 0⟩⟩ ⟨⟨10, 0⟩, ⟨12, 1⟩⟩ =
    Real.arccos (2 / Real.sqrt 5) * 180 / Real.pi :=
  angle_between_shaft_barb (by norm_num [dot_product, direction_vector])
    (by norm_num [direction_vector]) (by norm_num [direction_vector])

lemma ang5_4 : angle_between ⟨⟨0, 0⟩, ⟨10, 0⟩⟩ ⟨⟨10, 0⟩, ⟨12, -1⟩⟩ =
    Real.arccos (2 / Real.sqrt 5) * 180 / Real.pi :=
  angle_between_shaft_barb (by norm_num [dot_product, direction_vector])
    (by norm_num [direction_vector]) (by norm_num [direction_vector])

lemma cep5_01 : closestEndpointPair ⟨⟨0, 0⟩, ⟨10, 0⟩⟩ ⟨⟨0, 0⟩, ⟨2, 1⟩⟩ =
    (0, Loc.start, Loc.start) := by
  have d1 : distance (⟨0, 0⟩ : Point) ⟨0, 0⟩ = 0 := distance_eval (by norm_num) le_rfl
  have d2 : distance (⟨0, 0⟩ : Point) ⟨2, 1⟩ = Real.sqrt 5 := distance_sqrt (by norm_num)
  have d3 : distance (⟨10, 0⟩ : Point) ⟨0, 0⟩ = 10 := distance_eval (by norm_num) (by norm_num)
  have d4 : distance (⟨10, 0⟩ : Point) ⟨2, 1⟩ = Real.sqrt 65 := distance_sqrt (by norm_num)
  rw [closestEndpointPair]
  dsimp only
  rw [d1, d2, d3, d4]
  exact minByFirst_first _ _ _ _ (not_sqrt_lt_zero 5) (by norm_num) (not_sqrt_lt_zero 65)

lemma cep5_02 : closestEndpointPair ⟨⟨0, 0⟩, ⟨10, 0⟩⟩ ⟨⟨0, 0⟩, ⟨2, -1⟩⟩ =
    (0, Loc.start, Loc.start) := by
  have d1 : distance (⟨0, 0⟩ : Point) ⟨0, 0⟩ = 0 := distance_eval (by norm_num) le_rfl
  have d2 : distance (⟨0, 0⟩ : Point) ⟨2, -1⟩ = Real.sqrt 5 := distance_sqrt (by norm_num)
  have d3 : distance (⟨10, 0⟩ : Point) ⟨0, 0⟩ = 10 := distance_eval (by norm_num) (by norm_num)
  have d4 : distance (⟨10, 0⟩ : Point) ⟨2, -1⟩ = Real.sqrt 65 := distance_sqrt (by norm_num)
  rw [closestEndpointPair]
  dsimp only
  rw [d1, d2, d3, d4]
  exact minByFirst_first _ _ _ _ (not_sqrt_lt_zero 5) (by norm_num) (not_sqrt_lt_zero 65)

lemma cep5_03 : closestEndpointPair ⟨⟨0, 0⟩, ⟨10, 0⟩⟩ ⟨⟨10, 0⟩, ⟨12, 1⟩⟩ =
    (0, Loc.end', Loc.start) := by
  have d1 : distance (⟨0, 0⟩ : Point) ⟨10, 0⟩ = 10 := distance_eval (by norm_num) (by norm_num)
  have d2 : distance (⟨0, 0⟩ : Point) ⟨12, 1⟩ = Real.sqrt 145 := distance_sqrt (by norm_num)
  have d3 : distance (⟨10, 0⟩ : Point) ⟨10, 0⟩ = 0 := distance_eval (by norm_num) le_rfl
  have d4 : distance (⟨10, 0⟩ : Point) ⟨12, 1⟩ = Real.sqrt 5 := distance_sqrt (by norm_num)
  rw [closestEndpointPair]
  dsimp only
  rw [d1, d2, d3, d4]
  exact minByFirst_third _ _ _ _ not_sqrt_145_lt_ten (by norm_num) (not_sqrt_lt_zero 5)

lemma cep5_04 : closestEndpointPair ⟨⟨0, 0⟩, ⟨10, 0⟩⟩ ⟨⟨10, 0⟩, ⟨12, -1⟩⟩ =
    (0, Loc.end', Loc.start) := by
  have d1 : distance (⟨0, 0⟩ : Point) ⟨10, 0⟩ = 10 := distance_eval (by norm_num) (by norm_num)
  have d2 : distance (⟨0, 0⟩ : Point) ⟨12, -1⟩ = Real.sqrt 145 := distance_sqrt (by norm_num)
  have d3 : distance (⟨10, 0⟩ : Point) ⟨10, 0⟩ = 0 := distance_eval (by norm_num) le_rfl
  have d4 : distance (⟨10, 0⟩ : Point) ⟨12, -1⟩ = Real.sqrt 5 := distance_sqrt (by norm_num)
  rw [closestEndpointPair]
  dsimp only
  rw [d1, d2, d3, d4]
  exact minByFirst_third _ _ _ _ not_sqrt_145_lt_ten (by norm_num) (not_sqrt_lt_zero 5)

lemma me5_01 : meetingEntry fiveLines [10, Real.sqrt 5, Real.sqrt 5, Real.sqrt 5, Real.sqrt 5]
    0.1 0 1 = some (Loc.start, (1, Loc.start)) := by
  rw [meetingEntry]
  rw [if_neg (by decide : ¬ (0 = 1))]
  simp only [List.getD_cons_zero, List.getD_cons_succ]
  rw [if_neg (not_le.mpr sqrt_five_lt_ten)]
  rw [lineAt_five_0, lineAt_five_1]
  rw [if_neg (not_parallel_of_shaft_barb_angle ang5_1)]
  simp only [cep5_01]
  rw [if_pos (by norm_num : (0 : ℝ) ≤ 0.1)]

lemma me5_02 : meetingEntry fiveLines [10, Real.sqrt 5, Real.sqrt 5, Real.sqrt 5, Real.sqrt 5]
    0.1 0 2 = some (Loc.start, (2, Loc.start)) := by
  rw [meetingEntry]
  rw [if_neg (by decide : ¬ (0 = 2))]
  simp only [List.getD_cons_zero, List.getD_cons_succ]
  rw [if_neg (not_le.mpr sqrt_five_lt_ten)]
  rw [lineAt_five_0, lineAt_five_2]
  rw [if_neg (not_parallel_of_shaft_barb_angle ang5_2)]
  simp only [cep5_02]
  rw [if_pos (by norm_num : (0 : ℝ) ≤ 0.1)]

lemma me5_03 : meetingEntry fiveLines [10, Real.sqrt 5, Real.sqrt 5, Real.sqrt 5, Real.sqrt 5]
    0.1 0 3 = some (Loc.end', (3, Loc.start)) := by
  rw [meetingEntry]
  rw [if_neg (by decide : ¬ (0 = 3))]
  simp only [List.getD_cons_zero, List.getD_cons_succ]
  rw [if_neg (not_le.mpr sqrt_five_lt_ten)]
  rw [lineAt_five_0, lineAt_five_3]
  rw [if_neg (not_parallel_of_shaft_barb_angle ang5_3)]
  simp only [cep5_03]
  rw [if_pos (by norm_num : (0 : ℝ) ≤ 0.1)]

lemma me5_04 : meetingEntry fiveLines [10, Real.sqrt 5, Real.sqrt 5, Real.sqrt 5, Real.sqrt 5]
    0.1 0 4 = some (Loc.end', (4, Loc.start)) := by
  rw [meetingEntry]
  rw [if_neg (by decide : ¬ (0 = 4))]
  simp only [List.getD_cons_zero, List.getD_cons_succ]
  rw [if_neg (not_le.mpr sqrt_five_lt_ten)]
  rw [lineAt_five_0, lineAt_five_4]
  rw [if_neg (not_parallel_of_shaft_barb_angle ang5_4)]
  simp only [cep5_04]
  rw [if_pos (by norm_num : (0 : ℝ) ≤ 0.1)]

lemma meets5_0 : meetsOf fiveLines [10, Real.sqrt 5, Real.sqrt 5, Real.sqrt 5, Real.sqrt 5]
    0.1 0 = ⟨[(1, Loc.start), (2, Loc.start)], [(3, Loc.start), (4, Loc.start)]⟩ := by
  rw [meetsOf]
  rw [show List.range fiveLines.length = [0, 1, 2, 3, 4] from rfl]
  refine congrArg₂ Meets.mk ?_ ?_
  · simp only [List.filterMap_cons, List.filterMap_nil, meetingEntry_self,
      me5_01, me5_02, me5_03, me5_04]
  · simp only [List.filterMap_cons, List.filterMap_nil, meetingEntry_self,
      me5_01, me5_02, me5_03, me5_04]

lemma sqrt_five_le_getD_five : ∀ j, j < 5 →
    Real.sqrt 5 ≤ [(10 : ℝ), Real.sqrt 5, Real.sqrt 5, Real.sqrt 5, Real.sqrt 5].getD j 0 := by
  intro j hj
  interval_cases j
  · simp only [List.getD_cons_zero]
    exact le_of_lt sqrt_five_lt_ten
  · simp only [List.getD_cons_succ, List.getD_cons_zero]
    exact le_rfl
  · simp only [List.getD_cons_succ, List.getD_cons_zero]
    exact le_rfl
  · simp only [List.getD_cons_succ, List.getD_cons_zero]
    exact le_rfl
  · simp only [List.getD_cons_succ, List.getD_cons_zero]
    exact le_rfl

lemma getD_five_eq_sqrt_five : ∀ i, 1 ≤ i → i < 5 →
    [(10 : ℝ), Real.sqrt 5, Real.sqrt 5, Real.sqrt 5, Real.sqrt 5].getD i 0 = Real.sqrt 5 := by
  intro i h1 h5
  interval_cases i
  · simp only [List.getD_cons_succ, List.getD_cons_zero]
  · simp only [List.getD_cons_succ, List.getD_cons_zero]
  · simp only [List.getD_cons_succ, List.getD_cons_zero]
  · simp only [List.getD_cons_succ, List.getD_cons_zero]

lemma meets5_skip (i : ℕ) (h1 : 1 ≤ i) (h5 : i < 5) :
    meetsOf fiveLines [10, Real.sqrt 5, Real.sqrt 5, Real.sqrt 5, Real.sqrt 5] 0.1 i =
      ⟨[], []⟩ := by
  refine meetsOf_eq_nil ?_
  intro j hj
  rw [List.mem_range] at hj
  rcases eq_or_ne i j with h | h
  · rw [h]
    exact meetingEntry_self _ _ _ _
  · refine meetingEntry_of_le _ _ _ h ?_
    rw [getD_five_eq_sqrt_five i h1 h5]
    exact sqrt_five_le_getD_five j hj

lemma bpOK5_start : barbPairOK (lineAt fiveLines 0) fiveLines
    [10, Real.sqrt 5, Real.sqrt 5, Real.sqrt 5, Real.sqrt 5] ∅ CONFIG.ARROW_DETECTION 1 2 := by
  refine ⟨Finset.not_mem_empty 1, Finset.not_mem_empty 2, ?_, ?_, ?_, ?_⟩
  · simp only [List.getD_cons_succ, List.getD_cons_zero, sub_self, abs_zero]
    norm_num [CONFIG]
  · rw [lineAt_five_0, lineAt_five_1, ang5_1]
    have h : CONFIG.ARROW_DETECTION.arrow_angle_max = 75 := by norm_num [CONFIG]
    rw [h]
    exact arccos_two_div_sqrt_five_deg_le_75
  · rw [lineAt_five_0, lineAt_five_2, ang5_2]
    have h : CONFIG.ARROW_DETECTION.arrow_angle_max = 75 := by norm_num [CONFIG]
    rw [h]
    exact arccos_two_div_sqrt_five_deg_le_75
  · rw [lineAt_five_0, lineAt_five_1, lineAt_five_2, ang5_1, ang5_2, sub_self, abs_zero]
    norm_num [CONFIG]

lemma bpOK5_end : barbPairOK (lineAt fiveLines 0) fiveLines
    [10, Real.sqrt 5, Real.sqrt 5, Real.sqrt 5, Real.sqrt 5] (insert 1 (insert 2 ∅))
    CONFIG.ARROW_DETECTION 3 4 := by
  refine ⟨by decide, by decide, ?_, ?_, ?_, ?_⟩
  · simp only [List.getD_cons_succ, List.getD_cons_zero, sub_self, abs_zero]
    norm_num [CONFIG]
  · rw [lineAt_five_0, lineAt_five_3, ang5_3]
    have h : CONFIG.ARROW_DETECTION.arrow_angle_max = 75 := by norm_num [CONFIG]
    rw [h]
    exact arccos_two_div_sqrt_five_deg_le_75
  · rw [lineAt_five_0, lineAt_five_4, ang5_4]
    have h : CONFIG.ARROW_DETECTION.arrow_angle_max = 75 := by norm_num [CONFIG]
    rw [h]
    exact arccos_two_div_sqrt_five_deg_le_75
  · rw [lineAt_five_0, lineAt_five_3, lineAt_five_4, ang5_3, ang5_4, sub_self, abs_zero]
    norm_num [CONFIG]

lemma step5_start (tip : Point) :
    detectStep fiveLines [10, Real.sqrt 5, Real.sqrt 5, Real.sqrt 5, Real.sqrt 5]
      CONFIG.ARROW_DETECTION 0 [(1, Loc.start), (2, Loc.start)] tip Loc.start ([], ∅) =
    ([⟨0, 1, 2, tip, Loc.start⟩], insert 1 (insert 2 ∅)) := by
  rw [detectStep, if_pos (by norm_num : 2 ≤ List.length [(1, Loc.start), (2, Loc.start)])]
  rw [check_symmetrical_lines,
    if_neg (by norm_num : ¬ List.length [(1, Loc.start), (2, Loc.start)] < 2)]
  rw [searchBarbPairs, findPartner, if_pos bpOK5_start]
  rfl

lemma step5_end (A : List Arrow) (tip : Point) :
    detectStep fiveLines [10, Real.sqrt 5, Real.sqrt 5, Real.sqrt 5, Real.sqrt 5]
      CONFIG.ARROW_DETECTION 0 [(3, Loc.start), (4, Loc.start)] tip Loc.end'
      (A, insert 1 (insert 2 ∅)) =
    (A ++ [⟨0, 3, 4, tip, Loc.end'⟩], insert 3 (insert 4 (insert 1 (insert 2 ∅)))) := by
  rw [detectStep, if_pos (by norm_num : 2 ≤ List.length [(3, Loc.start), (4, Loc.start)])]
  rw [check_symmetrical_lines,
    if_neg (by norm_num : ¬ List.length [(3, Loc.start), (4, Loc.start)] < 2)]
  rw [searchBarbPairs, findPartner, if_pos bpOK5_end]

lemma iter5_0 : detectIter fiveLines [10, Real.sqrt 5, Real.sqrt 5, Real.sqrt 5, Real.sqrt 5]
    CONFIG.ARROW_DETECTION ([], ∅) 0 =
    ([⟨0, 1, 2, ⟨0, 0⟩, Loc.start⟩, ⟨0, 3, 4, ⟨10, 0⟩, Loc.end'⟩],
      insert 3 (insert 4 (insert 1 (insert 2 ∅)))) := by
  rw [detectIter, show CONFIG.ARROW_DETECTION.tip_point_tolerance = (0.1 : ℝ) from rfl,
    meets5_0]
  dsimp only
  rw [step5_start, step5_end]
  rfl

lemma iter5_skip (st : List Arrow × Finset ℕ) (i : ℕ) (h1 : 1 ≤ i) (h5 : i < 5) :
    detectIter fiveLines [10, Real.sqrt 5, Real.sqrt 5, Real.sqrt 5, Real.sqrt 5]
      CONFIG.ARROW_DETECTION st i = st := by
  rw [detectIter, show CONFIG.ARROW_DETECTION.tip_point_tolerance = (0.1 : ℝ) from rfl,
    meets5_skip i h1 h5]
  dsimp only
  rw [detectStep_nil, detectStep_nil]

/-- Full evaluation of arrow detection on the double-headed dimension line:
the same shaft segment `0` carries two arrows, one per endpoint. -/
lemma detect5_eval : detect_arrows_in_drawing fiveLines CONFIG =
    [⟨0, 1, 2, ⟨0, 0⟩, Loc.start⟩, ⟨0, 3, 4, ⟨10, 0⟩, Loc.end'⟩] := by
  simp only [detect_arrows_in_drawing]
  rw [map_length_five]
  rw [show List.range fiveLines.length = [0, 1, 2, 3, 4] from rfl]
  rw [List.foldl_cons, iter5_0, List.foldl_cons, iter5_skip _ 1 (by norm_num) (by norm_num),
    List.foldl_cons, iter5_skip _ 2 (by norm_num) (by norm_num),
    List.foldl_cons, iter5_skip _ 3 (by norm_num) (by norm_num),
    List.foldl_cons, iter5_skip _ 4 (by norm_num) (by norm_num), List.foldl_nil]

lemma foldl_invariant {α σ : Type _} (f : σ → α → σ) (I : σ → Prop)
    (l : List α) (s : σ) (h0 : I s) (hstep : ∀ t a, a ∈ l → I t → I (f t a)) :
    I (l.foldl f s) := by
  induction l generalizing s with
  | nil => exact h0
  | cons a as ih =>
      exact ih (f s a) (hstep s a (List.mem_cons_self a as) h0)
        fun t b hb => hstep t b (List.mem_cons_of_mem a hb)

lemma length_nonneg (l : Line) : 0 ≤ length l := Real.sqrt_nonneg _

lemma start_ne_end_of_length_pos {l : Line} (h : 0 < length l) :
    l.start_point ≠ l.end_point := by
  intro he
  rw [length, he, sub_self, sub_self, mul_zero, add_zero, Real.sqrt_zero] at h
  exact lt_irrefl 0 h

lemma map_length_getD (lines : List Line) (j : ℕ) :
    (lines.map length).getD j 0 = length (lineAt lines j) := by
  rcases lt_or_ge j lines.length with h | h
  · rw [List.getD_eq_getElem _ _ (by simpa using h), List.getElem_map, lineAt,
      List.getD_eq_getElem _ _ h]
  · rw [List.getD_eq_default _ _ (by simpa using h), lineAt, List.getD_eq_default _ _ h]
    rw [defaultLine, length]
    simp [Real.sqrt_eq_zero']

lemma minByFirst_mem (x : ℝ × Loc × Loc) (l : List (ℝ × Loc × Loc)) :
    minByFirst x l ∈ x :: l := by
  induction l generalizing x with
  | nil => simp [minByFirst]
  | cons y ys ih =>
      rw [minByFirst]
      have h := ih (if y.1 < x.1 then y else x)
      rcases List.mem_cons.mp h with h1 | h1
      · rw [h1]
        by_cases hc : y.1 < x.1
        · rw [if_pos hc]
          exact List.mem_cons_of_mem _ (List.mem_cons_self _ _)
        · rw [if_neg hc]
          exact List.mem_cons_self _ _
      · exact List.mem_cons_of_mem _ (List.mem_cons_of_mem _ h1)

lemma closestEndpointPair_dist (li lj : Line) :
    (closestEndpointPair li lj).1 =
      distance (endpointOf li (closestEndpointPair li lj).2.1)
        (endpointOf lj (closestEndpointPair li lj).2.2) := by
  have h : closestEndpointPair li lj ∈
      [(distance li.start_point lj.start_point, Loc.start, Loc.start),
       (distance li.start_point lj.end_point, Loc.start, Loc.end'),
       (distance li.end_point lj.start_point, Loc.end', Loc.start),
       (distance li.end_point lj.end_point, Loc.end', Loc.end')] :=
    minByFirst_mem _ _
  simp only [List.mem_cons, List.not_mem_nil, or_false] at h
  rcases h with h | h | h | h <;> rw [h] <;> rfl

lemma meetingEntry_fst {lines : List Line} {lens : List ℝ} {tol : ℝ} {i j : ℕ}
    {sel : Loc} {a : ℕ} {b : Loc}
    (h : meetingEntry lines lens tol i j = some (sel, (a, b))) :
    a = j ∧ ¬ i = j ∧ lens.getD j 0 < lens.getD i 0 ∧
    ¬ are_lines_parallel (lineAt lines i) (lineAt lines j) 5 ∧
    (closestEndpointPair (lineAt lines i) (lineAt lines j)).1 ≤ tol ∧
    (closestEndpointPair (lineAt lines i) (lineAt lines j)).2.1 = sel ∧
    (closestEndpointPair (lineAt lines i) (lineAt lines j)).2.2 = b := by
  simp only [meetingEntry] at h
  by_cases h1 : i = j
  · rw [if_pos h1] at h
    exact absurd h (by simp)
  rw [if_neg h1] at h
  by_cases h2 : lens.getD i 0 ≤ lens.getD j 0
  · rw [if_pos h2] at h
    exact absurd h (by simp)
  rw [if_neg h2] at h
  by_cases h3 : are_lines_parallel (lineAt lines i) (lineAt lines j) 5
  · rw [if_pos h3] at h
    exact absurd h (by simp)
  rw [if_neg h3] at h
  by_cases h4 : (closestEndpointPair (lineAt lines i) (lineAt lines j)).1 ≤ tol
  · rw [if_pos h4] at h
    rw [Option.some_inj, Prod.mk.injEq, Prod.mk.injEq] at h
    exact ⟨h.2.1.symm, h1, not_le.mp h2, h3, h4, h.1, h.2.2⟩
  · rw [if_neg h4] at h
    exact absurd h (by simp)

lemma meetsOf_mem_start {lines : List Line} {lens : List ℝ} {tol : ℝ} {i j : ℕ} {jp : Loc}
    (h : (j, jp) ∈ (meetsOf lines lens tol i).start) :
    j < lines.length ∧ meetingEntry lines lens tol i j = some (Loc.start, (j, jp)) := by
  simp only [meetsOf, List.mem_filterMap, List.mem_range] at h
  obtain ⟨j', hj', hsome⟩ := h
  rcases hme : meetingEntry lines lens tol i j' with _ | ⟨sel, e⟩
  · rw [hme] at hsome
    exact absurd hsome (by simp)
  · rw [hme] at hsome
    cases sel with
    | start =>
        rw [Option.some_inj] at hsome
        subst hsome
        have hfst : j = j' := (meetingEntry_fst hme).1
        subst hfst
        exact ⟨hj', hme⟩
    | end' => exact absurd hsome (by simp)
    | both => exact absurd hsome (by simp)

lemma meetsOf_mem_end {lines : List Line} {lens : List ℝ} {tol : ℝ} {i j : ℕ} {jp : Loc}
    (h : (j, jp) ∈ (meetsOf lines lens tol i).end') :
    j < lines.length ∧ meetingEntry lines lens tol i j = some (Loc.end', (j, jp)) := by
  simp only [meetsOf, List.mem_filterMap, List.mem_range] at h
  obtain ⟨j', hj', hsome⟩ := h
  rcases hme : meetingEntry lines lens tol i j' with _ | ⟨sel, e⟩
  · rw [hme] at hsome
    exact absurd hsome (by simp)
  · rw [hme] at hsome
    cases sel with
    | end' =>
        rw [Option.some_inj] at hsome
        subst hsome
        have hfst : j = j' := (meetingEntry_fst hme).1
        subst hfst
        exact ⟨hj', hme⟩
    | start => exact absurd hsome (by simp)
    | both => exact absurd hsome (by simp)

lemma nodup_map_fst_filterMap {α : Type _} (g : ℕ → Option (ℕ × α)) (l : List ℕ)
    (hl : l.Nodup) (hg : ∀ j e, g j = some e → e.1 = j) :
    ((l.filterMap g).map Prod.fst).Nodup := by
  induction l with
  | nil => simp
  | cons a as ih =>
      have hl' := List.nodup_cons.mp hl
      rw [List.filterMap_cons]
      rcases hga : g a with _ | e
      · exact ih hl'.2
      · rw [List.map_cons]
        refine List.nodup_cons.mpr ⟨?_, ih hl'.2⟩
        intro hmem
        simp only [List.mem_map, List.mem_filterMap] at hmem
        obtain ⟨e', ⟨b, hb, hgb⟩, hfst⟩ := hmem
        have h1 : e'.1 = b := hg b e' hgb
        have h2 : e.1 = a := hg a e hga
        rw [h1, h2] at hfst
        exact hl'.1 (hfst ▸ hb)

lemma meetsOf_start_nodup (lines : List Line) (lens : List ℝ) (tol : ℝ) (i : ℕ) :
    (((meetsOf lines lens tol i).start).map Prod.fst).Nodup := by
  refine nodup_map_fst_filterMap _ _ (List.nodup_range _) ?_
  intro j e hg
  rcases hme : meetingEntry lines lens tol i j with _ | ⟨sel, e'⟩
  · rw [hme] at hg
    exact absurd hg (by simp)
  · rw [hme] at hg
    cases sel with
    | start =>
        rw [Option.some_inj] at hg
        rw [← hg]
        exact (meetingEntry_fst hme).1
    | end' => exact absurd hg (by simp)
    | both => exact absurd hg (by simp)

lemma meetsOf_end_nodup (lines : List Line) (lens : List ℝ) (tol : ℝ) (i : ℕ) :
    (((meetsOf lines lens tol i).end').map Prod.fst).Nodup := by
  refine nodup_map_fst_filterMap _ _ (List.nodup_range _) ?_
  intro j e hg
  rcases hme : meetingEntry lines lens tol i j with _ | ⟨sel, e'⟩
  · rw [hme] at hg
    exact absurd hg (by simp)
  · rw [hme] at hg
    cases sel with
    | end' =>
        rw [Option.some_inj] at hg
        rw [← hg]
        exact (meetingEntry_fst hme).1
    | start => exact absurd hg (by simp)
    | both => exact absurd hg (by simp)

lemma findPartner_spec {shaft : Line} {lines : List Line} {lens : List ℝ}
    {used : Finset ℕ} {cfg : ArrowDetectionConfig} {j : ℕ × Loc} {l : List (ℕ × Loc)} {k : ℕ}
    (h : findPartner shaft lines lens used cfg j l = some k) :
    ∃ kp, (k, kp) ∈ l ∧ barbPairOK shaft lines lens used cfg j.1 k := by
  induction l with
  | nil => exact absurd h (by simp [findPartner])
  | cons c cs ih =>
      rw [findPartner] at h
      by_cases hc : barbPairOK shaft lines lens used cfg j.1 c.1
      · rw [if_pos hc] at h
        rw [Option.some_inj] at h
        refine ⟨c.2, ?_, by rw [← h]; exact hc⟩
        rw [← h, Prod.mk.eta]
        exact List.mem_cons_self c cs
      · rw [if_neg hc] at h
        obtain ⟨kp, hmem, hok⟩ := ih h
        exact ⟨kp, List.mem_cons_of_mem _ hmem, hok⟩

lemma searchBarbPairs_spec {shaft : Line} {lines : List Line} {lens : List ℝ}
    {used : Finset ℕ} {cfg : ArrowDetectionConfig} {l : List (ℕ × Loc)} {b1 b2 : ℕ}
    (h : searchBarbPairs shaft lines lens used cfg l = some (b1, b2))
    (hnd : (l.map Prod.fst).Nodup) :
    b1 ≠ b2 ∧ (∃ p1, (b1, p1) ∈ l) ∧ (∃ p2, (b2, p2) ∈ l) ∧
      barbPairOK shaft lines lens used cfg b1 b2 := by
  induction l with
  | nil => exact absurd h (by simp [searchBarbPairs])
  | cons c cs ih =>
      rw [List.map_cons, List.nodup_cons] at hnd
      rw [searchBarbPairs] at h
      rcases hfp : findPartner shaft lines lens used cfg c cs with _ | k
      · rw [hfp] at h
        obtain ⟨hne, ⟨p1, h1⟩, ⟨p2, h2⟩, hok⟩ := ih h hnd.2
        exact ⟨hne, ⟨p1, List.mem_cons_of_mem _ h1⟩, ⟨p2, List.mem_cons_of_mem _ h2⟩, hok⟩
      · rw [hfp] at h
        rw [Option.some_inj, Prod.mk.injEq] at h
        obtain ⟨hb1, hb2⟩ := h
        obtain ⟨kp, hkmem, hok⟩ := findPartner_spec hfp
        have hkin : k ∈ cs.map Prod.fst := List.mem_map.mpr ⟨(k, kp), hkmem, rfl⟩
        have hne : b1 ≠ b2 := by
          rw [← hb1, ← hb2]
          intro hcontra
          exact hnd.1 (hcontra ▸ hkin)
        exact ⟨hne, ⟨c.2, by rw [← hb1, Prod.mk.eta]; exact List.mem_cons_self c cs⟩,
          ⟨kp, by rw [← hb2]; exact List.mem_cons_of_mem _ hkmem⟩,
          by rw [← hb1, ← hb2]; exact hok⟩

lemma check_symmetrical_lines_spec {shaft : Line} {ml : List (ℕ × Loc)}
    {lines : List Line} {lens : List ℝ} {used : Finset ℕ} {cfg : ArrowDetectionConfig}
    {b1 b2 : ℕ}
    (h : check_symmetrical_lines shaft ml lines lens used cfg = some (b1, b2))
    (hnd : (ml.map Prod.fst).Nodup) :
    b1 ≠ b2 ∧ (∃ p1, (b1, p1) ∈ ml) ∧ (∃ p2, (b2, p2) ∈ ml) ∧
      barbPairOK shaft lines lens used cfg b1 b2 := by
  rw [check_symmetrical_lines] at h
  by_cases hlen : ml.length < 2
  · rw [if_pos hlen] at h
    exact absurd h (by simp)
  · rw [if_neg hlen] at h
    exact searchBarbPairs_spec h hnd

lemma detectStep_cases (lines : List Line) (lens : List ℝ) (cfg : ArrowDetectionConfig)
    (i : ℕ) (ml : List (ℕ × Loc)) (tip : Point) (dir : Loc) (st : List Arrow × Finset ℕ) :
    detectStep lines lens cfg i ml tip dir st = st ∨
    ∃ b1 b2, check_symmetrical_lines (lineAt lines i) ml lines lens st.2 cfg = some (b1, b2) ∧
      detectStep lines lens cfg i ml tip dir st =
        (st.1 ++ [⟨i, b1, b2, tip, dir⟩], insert b1 (insert b2 st.2)) := by
  rw [detectStep]
  by_cases h2 : 2 ≤ ml.length
  · rw [if_pos h2]
    rcases hc : check_symmetrical_lines (lineAt lines i) ml lines lens st.2 cfg with _ | ⟨b1, b2⟩
    · exact Or.inl rfl
    · exact Or.inr ⟨b1, b2, rfl, rfl⟩
  · rw [if_neg h2]
    exact Or.inl rfl

lemma min_dist_le_endpoint (tip : Point) (lj : Line) (p : Loc) :
    min (distance tip lj.start_point) (distance tip lj.end_point) ≤
      distance tip (endpointOf lj p) := by
  cases p with
  | start => exact min_le_left _ _
  | end' => exact min_le_right _ _
  | both => exact min_le_right _ _

/-- Everything true of an arrow freshly built by the symmetry-classification
pass at endpoint `e` of segment `i`. -/
lemma new_arrow_spec {lines : List Line} {cfg : ArrowDetectionConfig} {tol : ℝ}
    {i b1 b2 : ℕ} {used : Finset ℕ} {ml : List (ℕ × Loc)} {e : Loc}
    (hml : ∀ j jp, (j, jp) ∈ ml → j < lines.length ∧
      meetingEntry lines (lines.map length) tol i j = some (e, (j, jp)))
    (hnd : (ml.map Prod.fst).Nodup)
    (hc : check_symmetrical_lines (lineAt lines i) ml lines (lines.map length) used cfg =
      some (b1, b2)) :
    b1 ≠ b2 ∧ b1 < lines.length ∧ b2 < lines.length ∧
    b1 ∉ used ∧ b2 ∉ used ∧
    length (lineAt lines b1) < length (lineAt lines i) ∧
    length (lineAt lines b2) < length (lineAt lines i) ∧
    |length (lineAt lines b1) - length (lineAt lines b2)| ≤ cfg.barb_length_diff_max ∧
    angle_between (lineAt lines i) (lineAt lines b1) ≤ cfg.arrow_angle_max ∧
    angle_between (lineAt lines i) (lineAt lines b2) ≤ cfg.arrow_angle_max ∧
    |angle_between (lineAt lines i) (lineAt lines b1) -
      angle_between (lineAt lines i) (lineAt lines b2)| ≤ cfg.barb_angle_diff_max ∧
    min (distance (endpointOf (lineAt lines i) e) (lineAt lines b1).start_point)
      (distance (endpointOf (lineAt lines i) e) (lineAt lines b1).end_point) ≤ tol ∧
    min (distance (endpointOf (lineAt lines i) e) (lineAt lines b2).start_point)
      (distance (endpointOf (lineAt lines i) e) (lineAt lines b2).end_point) ≤ tol ∧
    0 < length (lineAt lines i) := by
  obtain ⟨hne, ⟨p1, h1⟩, ⟨p2, h2⟩, hOK⟩ := check_symmetrical_lines_spec hc hnd
  obtain ⟨hb1len, hme1⟩ := hml b1 p1 h1
  obtain ⟨hb2len, hme2⟩ := hml b2 p2 h2
  obtain ⟨-, -, hlt1, -, htol1, hsel1, hjp1⟩ := meetingEntry_fst hme1
  obtain ⟨-, -, hlt2, -, htol2, hsel2, hjp2⟩ := meetingEntry_fst hme2
  rw [map_length_getD, map_length_getD] at hlt1 hlt2
  obtain ⟨hu1, hu2, hlen, hang1, hang2, hangd⟩ := hOK
  rw [map_length_getD, map_length_getD] at hlen
  have hd1 : distance (endpointOf (lineAt lines i) e) (endpointOf (lineAt lines b1) p1) ≤
      tol := by
    have := closestEndpointPair_dist (lineAt lines i) (lineAt lines b1)
    rw [hsel1, hjp1] at this
    rw [← this]
    exact htol1
  have hd2 : distance (endpointOf (lineAt lines i) e) (endpointOf (lineAt lines b2) p2) ≤
      tol := by
    have := closestEndpointPair_dist (lineAt lines i) (lineAt lines b2)
    rw [hsel2, hjp2] at this
    rw [← this]
    exact htol2
  have hpos : 0 < length (lineAt lines i) :=
    lt_of_le_of_lt (length_nonneg (lineAt lines b1)) hlt1
  exact ⟨hne, hb1len, hb2len, hu1, hu2, hlt1, hlt2, hlen, hang1, hang2, hangd,
    le_trans (min_dist_le_endpoint _ _ p1) hd1,
    le_trans (min_dist_le_endpoint _ _ p2) hd2, hpos⟩

lemma barbIndices_append (l1 l2 : List Arrow) :
    barbIndices (l1 ++ l2) = barbIndices l1 ++ barbIndices l2 := by
  rw [barbIndices, barbIndices, barbIndices, List.flatMap_append]

lemma detectStep_barbs {lines : List Line} {lens : List ℝ} {cfg : ArrowDetectionConfig}
    {i : ℕ} {ml : List (ℕ × Loc)} {tip : Point} {dir : Loc} {st : List Arrow × Finset ℕ}
    (hnd : (ml.map Prod.fst).Nodup)
    (hI : (barbIndices st.1).Nodup ∧ ∀ b ∈ barbIndices st.1, b ∈ st.2) :
    (barbIndices (detectStep lines lens cfg i ml tip dir st).1).Nodup ∧
      ∀ b ∈ barbIndices (detectStep lines lens cfg i ml tip dir st).1,
        b ∈ (detectStep lines lens cfg i ml tip dir st).2 := by
  rcases detectStep_cases lines lens cfg i ml tip dir st with h | ⟨b1, b2, hc, heq⟩
  · rw [h]
    exact hI
  · rw [heq]
    obtain ⟨hne, -, -, hOK⟩ := check_symmetrical_lines_spec hc hnd
    have hu1 : b1 ∉ st.2 := hOK.1
    have hu2 : b2 ∉ st.2 := hOK.2.1
    have hbarbs : barbIndices [(⟨i, b1, b2, tip, dir⟩ : Arrow)] = [b1, b2] := rfl
    constructor
    · rw [barbIndices_append, hbarbs]
      refine List.nodup_append.mpr ⟨hI.1, by simp [hne], ?_⟩
      intro x hx
      have hx2 := hI.2 x hx
      simp only [List.mem_cons, List.not_mem_nil, or_false]
      rintro (rfl | rfl)
      · exact hu1 hx2
      · exact hu2 hx2
    · intro b hb
      rw [barbIndices_append, hbarbs] at hb
      rcases List.mem_append.mp hb with h' | h'
      · exact Finset.mem_insert_of_mem (Finset.mem_insert_of_mem (hI.2 b h'))
      · simp only [List.mem_cons, List.not_mem_nil, or_false] at h'
        rcases h' with rfl | rfl
        · exact Finset.mem_insert_self _ _
        · exact Finset.mem_insert_of_mem (Finset.mem_insert_self _ _)

/-- Global barb exclusivity: across one detection run, the list of all barb
indices (two per arrow) contains no duplicates. -/
lemma detect_barbIndices_nodup (lines : List Line) (config : Config) :
    (barbIndices (detect_arrows_in_drawing lines config)).Nodup := by
  have H := foldl_invariant
      (detectIter lines (lines.map length) config.ARROW_DETECTION)
      (fun st => (barbIndices st.1).Nodup ∧ ∀ b ∈ barbIndices st.1, b ∈ st.2)
      (List.range lines.length) ([], ∅) (by constructor <;> simp [barbIndices]) ?_
  · exact H.1
  · intro t i _ hI
    rw [detectIter]
    exact detectStep_barbs (meetsOf_end_nodup _ _ _ _)
      (detectStep_barbs (meetsOf_start_nodup _ _ _ _) hI)

lemma detectIter_shape (lines : List Line) (lens : List ℝ) (cfg : ArrowDetectionConfig)
    (st : List Arrow × Finset ℕ) (i : ℕ) :
    ∃ tail : List Arrow, (detectIter lines lens cfg st i).1 = st.1 ++ tail ∧
      tail.length ≤ 2 ∧ ∀ a ∈ tail, a.shaft = i := by
  rw [detectIter]
  rcases detectStep_cases lines lens cfg i
      (meetsOf lines lens cfg.tip_point_tolerance i).start
      (lineAt lines i).start_point Loc.start st with h1 | ⟨b1, b2, _, heq1⟩
  · rw [h1]
    rcases detectStep_cases lines lens cfg i
        (meetsOf lines lens cfg.tip_point_tolerance i).end'
        (lineAt lines i).end_point Loc.end' st with h2 | ⟨c1, c2, _, heq2⟩
    · rw [h2]
      exact ⟨[], by simp⟩
    · rw [heq2]
      refine ⟨[⟨i, c1, c2, (lineAt lines i).end_point, Loc.end'⟩], rfl, by simp, ?_⟩
      intro a ha
      rw [List.mem_singleton] at ha
      rw [ha]
  · rw [heq1]
    rcases detectStep_cases lines lens cfg i
        (meetsOf lines lens cfg.tip_point_tolerance i).end'
        (lineAt lines i).end_point Loc.end'
        (st.1 ++ [⟨i, b1, b2, (lineAt lines i).start_point, Loc.start⟩],
          insert b1 (insert b2 st.2)) with h2 | ⟨c1, c2, _, heq2⟩
    · rw [h2]
      refine ⟨[⟨i, b1, b2, (lineAt lines i).start_point, Loc.start⟩], rfl, by simp, ?_⟩
      intro a ha
      rw [List.mem_singleton] at ha
      rw [ha]
    · rw [heq2]
      refine ⟨[⟨i, b1, b2, (lineAt lines i).start_point, Loc.start⟩,
        ⟨i, c1, c2, (lineAt lines i).end_point, Loc.end'⟩], by simp, by simp, ?_⟩
      intro a ha
      simp only [List.mem_cons, List.not_mem_nil, or_false] at ha
      rcases ha with rfl | rfl <;> rfl

/-- A single shaft yields at most two arrows (one per endpoint) in one run. -/
lemma detect_shaft_filter_le_two (lines : List Line) (config : Config) (s : ℕ) :
    ((detect_arrows_in_drawing lines config).filter fun a => a.shaft = s).length ≤ 2 := by
  suffices H : ∀ (l : List ℕ), l.Nodup → ∀ (st : List Arrow × Finset ℕ),
      (∀ u, ((st.1.filter fun a => a.shaft = u).length ≤ 2)) →
      (∀ a ∈ st.1, a.shaft ∉ l) →
      ∀ u, (((l.foldl (detectIter lines (lines.map length) config.ARROW_DETECTION) st).1.filter
        fun a => a.shaft = u).length ≤ 2) by
    have := H (List.range lines.length) (List.nodup_range _) ([], ∅) (by simp) (by simp) s
    simpa only [detect_arrows_in_drawing] using this
  intro l
  induction l with
  | nil =>
      intro _ st hcount _ u
      exact hcount u
  | cons i rest ih =>
      intro hnd st hcount hnotin u
      rw [List.foldl_cons]
      obtain ⟨tail, htail, hlen2, hshaft⟩ :=
        detectIter_shape lines (lines.map length) config.ARROW_DETECTION st i
      have hnd' := List.nodup_cons.mp hnd
      refine ih hnd'.2 _ ?_ ?_ u
      · intro v
        rw [htail, List.filter_append, List.length_append]
        by_cases hv : v = i
        · have hempty : (st.1.filter fun a => a.shaft = v) = [] := by
            rw [List.filter_eq_nil_iff]
            intro a ha
            simp only [decide_eq_true_eq]
            intro hav
            exact hnotin a ha (by rw [hav, hv]; exact List.mem_cons_self _ _)
          rw [hempty]
          simp only [List.length_nil, zero_add]
          calc (tail.filter fun a => a.shaft = v).length ≤ tail.length :=
                List.length_filter_le _ _
          _ ≤ 2 := hlen2
        · have hempty : (tail.filter fun a => a.shaft = v) = [] := by
            rw [List.filter_eq_nil_iff]
            intro a ha
            simp only [decide_eq_true_eq]
            intro hav
            exact hv (by rw [← hav, hshaft a ha])
          rw [hempty]
          simpa using hcount v
      · intro a ha
        rw [htail] at ha
        rcases List.mem_append.mp ha with h' | h'
        · exact fun hmem => hnotin a h' (List.mem_cons_of_mem _ hmem)
        · rw [hshaft a h']
          exact hnd'.1

lemma getD_map_lt {α β : Type _} (f : α → β) (l : List α) (p : ℕ) (h : p < l.length)
    (d : β) (d' : α) : (l.map f).getD p d = f (l.getD p d') := by
  rw [List.getD_eq_getElem _ _ (by simpa using h), List.getElem_map,
    List.getD_eq_getElem _ _ h]

lemma mem_arrowLinesOf {arrow_leaders : List ArrowLeader} {j : ℕ} :
    j ∈ arrowLinesOf arrow_leaders ↔ ∃ l ∈ arrow_leaders,
      j = l.arrow.shaft ∨ j = l.arrow.left_barb ∨ j = l.arrow.right_barb := by
  have key : ∀ (L : List ArrowLeader) (s : Finset ℕ),
      j ∈ L.foldl (fun s leader =>
        insert leader.arrow.shaft (insert leader.arrow.left_barb
          (insert leader.arrow.right_barb s))) s ↔
      j ∈ s ∨ ∃ l ∈ L, j = l.arrow.shaft ∨ j = l.arrow.left_barb ∨ j = l.arrow.right_barb := by
    intro L
    induction L with
    | nil => simp
    | cons a as ih =>
        intro s
        rw [List.foldl_cons, ih]
        simp only [Finset.mem_insert, List.mem_cons]
        constructor
        · rintro ((h | h | h | h) | ⟨l, hl, h⟩)
          · exact Or.inr ⟨a, Or.inl rfl, Or.inl h⟩
          · exact Or.inr ⟨a, Or.inl rfl, Or.inr (Or.inl h)⟩
          · exact Or.inr ⟨a, Or.inl rfl, Or.inr (Or.inr h)⟩
          · exact Or.inl h
          · exact Or.inr ⟨l, Or.inr hl, h⟩
        · rintro (h | ⟨l, hl | hl, h⟩)
          · exact Or.inl (Or.inr (Or.inr (Or.inr h)))
          · subst hl
            rcases h with h | h | h
            · exact Or.inl (Or.inl h)
            · exact Or.inl (Or.inr (Or.inl h))
            · exact Or.inl (Or.inr (Or.inr (Or.inl h)))
          · exact Or.inr ⟨l, hl, h⟩
  rw [arrowLinesOf, key]
  simp

lemma accBeats_none (d : ℝ) : accBeats d none := trivial

lemma accBeats_some (d : ℝ) (a : ℝ × ℕ) : accBeats d (some a) ↔ d < a.1 := Iff.rfl

lemma closestTextGo_nil (pos : Point) (maxd : ℝ) (idx : ℕ) (acc : Option (ℝ × ℕ)) :
    closestTextGo pos maxd [] idx acc = acc := rfl

lemma closestTextGo_cons (pos : Point) (maxd : ℝ) (x : TextEntity)
    (rest : List TextEntity) (idx : ℕ) (acc : Option (ℝ × ℕ)) :
    closestTextGo pos maxd (x :: rest) idx acc =
      closestTextGo pos maxd rest (idx + 1)
        (if distance pos x.position < maxd ∧ accBeats (distance pos x.position) acc
          then some (distance pos x.position, idx) else acc) := rfl

lemma closestTextGo_eq_none {pos : Point} {maxd : ℝ} :
    ∀ (ts : List TextEntity) (idx : ℕ) (acc : Option (ℝ × ℕ)),
      closestTextGo pos maxd ts idx acc = none ↔
        acc = none ∧ ∀ k, k < ts.length →
          ¬ distance pos (ts.getD k defaultText).position < maxd := by
  intro ts
  induction ts with
  | nil =>
      intro idx acc
      simp [closestTextGo_nil]
  | cons x rest ih =>
      intro idx acc
      rw [closestTextGo_cons, ih]
      rcases acc with _ | a
      · by_cases h0 : distance pos x.position < maxd
        · rw [if_pos ⟨h0, accBeats_none _⟩]
          constructor
          · rintro ⟨h, -⟩
            exact absurd h (by simp)
          · rintro ⟨-, hall⟩
            exact absurd h0 (by simpa using hall 0 (by simp))
        · rw [if_neg (fun hc => h0 hc.1)]
          constructor
          · rintro ⟨-, hrest⟩
            refine ⟨rfl, ?_⟩
            intro k hk
            cases k with
            | zero => simpa using h0
            | succ m => simpa using hrest m (by simpa using hk)
          · rintro ⟨-, hall⟩
            refine ⟨rfl, ?_⟩
            intro k hk
            simpa using hall (k + 1) (by simpa using hk)
      · constructor
        · rintro ⟨h', -⟩
          by_cases hc : distance pos x.position < maxd ∧
              accBeats (distance pos x.position) (some a)
          · rw [if_pos hc] at h'
            exact absurd h' (by simp)
          · rw [if_neg hc] at h'
            exact absurd h' (by simp)
        · rintro ⟨h, -⟩
          exact absurd h (by simp)

lemma closestTextGo_some_spec {pos : Point} {maxd : ℝ} :
    ∀ (ts : List TextEntity) (idx : ℕ) (acc : Option (ℝ × ℕ)) (d : ℝ) (t : ℕ),
      closestTextGo pos maxd ts idx acc = some (d, t) →
      acc = some (d, t) ∨ (idx ≤ t ∧ t - idx < ts.length ∧
        d = distance pos (ts.getD (t - idx) defaultText).position ∧ d < maxd) := by
  intro ts
  induction ts with
  | nil =>
      intro idx acc d t h
      rw [closestTextGo_nil] at h
      exact Or.inl h
  | cons x rest ih =>
      intro idx acc d t h
      rw [closestTextGo_cons] at h
      rcases ih (idx + 1) _ d t h with hacc' | ⟨h1, h2, h3, h4⟩
      · by_cases hcond : distance pos x.position < maxd ∧
            accBeats (distance pos x.position) acc
        · rw [if_pos hcond] at hacc'
          rw [Option.some_inj, Prod.mk.injEq] at hacc'
          obtain ⟨hd, ht⟩ := hacc'
          subst hd
          subst ht
          right
          refine ⟨le_rfl, by simp, ?_, hcond.1⟩
          rw [Nat.sub_self]
          simp only [List.getD_cons_zero]
        · rw [if_neg hcond] at hacc'
          exact Or.inl hacc'
      · right
        refine ⟨by omega, by simp only [List.length_cons]; omega, ?_, h4⟩
        rw [show t - idx = (t - (idx + 1)) + 1 from by omega]
        simpa using h3

lemma closestTextGo_min {pos : Point} {maxd : ℝ} :
    ∀ (ts : List TextEntity) (idx : ℕ) (acc : Option (ℝ × ℕ)) (d : ℝ) (t : ℕ),
      closestTextGo pos maxd ts idx acc = some (d, t) →
      (∀ d0 t0, acc = some (d0, t0) → d ≤ d0) ∧
      (∀ k, k < ts.length → distance pos (ts.getD k defaultText).position < maxd →
        d ≤ distance pos (ts.getD k defaultText).position) := by
  intro ts
  induction ts with
  | nil =>
      intro idx acc d t h
      rw [closestTextGo_nil] at h
      subst h
      refine ⟨?_, by simp⟩
      intro d0 t0 h0
      rw [Option.some_inj, Prod.mk.injEq] at h0
      rw [h0.1]
  | cons x rest ih =>
      intro idx acc d t h
      rw [closestTextGo_cons] at h
      by_cases hcond : distance pos x.position < maxd ∧
          accBeats (distance pos x.position) acc
      · rw [if_pos hcond] at h
        obtain ⟨hprev, hrest⟩ := ih (idx + 1) _ d t h
        have hdx : d ≤ distance pos x.position := hprev _ _ rfl
        constructor
        · intro d0 t0 h0
          subst h0
          have h2 := (accBeats_some _ _).mp hcond.2
          simp only at h2
          linarith
        · intro k hk
          cases k with
          | zero =>
              intro _
              simpa using hdx
          | succ m =>
              intro hm
              simpa using hrest m (by simpa using hk) (by simpa using hm)
      · rw [if_neg hcond] at h
        obtain ⟨hprev, hrest⟩ := ih (idx + 1) _ d t h
        refine ⟨hprev, ?_⟩
        intro k hk
        cases k with
        | zero =>
            intro hm
            simp only [List.getD_cons_zero] at hm ⊢
            rcases hacc : acc with _ | a
            · rw [hacc] at hcond
              exact absurd ⟨hm, accBeats_none _⟩ hcond
            · rw [hacc] at hcond
              have hle : a.1 ≤ distance pos x.position := by
                by_contra hlt
                exact hcond ⟨hm, (accBeats_some _ _).mpr (not_le.mp hlt)⟩
              have h3 : d ≤ a.1 := hprev a.1 a.2 (by rw [hacc])
              linarith
        | succ m =>
            intro hm
            simpa using hrest m (by simpa using hk) (by simpa using hm)

lemma detectStep_forall {lines : List Line} {lens : List ℝ} {cfg : ArrowDetectionConfig}
    {i : ℕ} {ml : List (ℕ × Loc)} {tip : Point} {dir : Loc} {st : List Arrow × Finset ℕ}
    {P : Arrow → Prop} (hst : ∀ a ∈ st.1, P a)
    (hnew : ∀ b1 b2, check_symmetrical_lines (lineAt lines i) ml lines lens st.2 cfg =
      some (b1, b2) → P ⟨i, b1, b2, tip, dir⟩) :
    ∀ a ∈ (detectStep lines lens cfg i ml tip dir st).1, P a := by
  rcases detectStep_cases lines lens cfg i ml tip dir st with heq | ⟨b1, b2, hc, heq⟩
  · rw [heq]
    exact hst
  · rw [heq]
    intro a ha
    rcases List.mem_append.mp ha with h' | h'
    · exact hst a h'
    · rw [List.mem_singleton] at h'
      subst h'
      exact hnew b1 b2 hc

lemma getD_mapIdx_lt {α β : Type _} (f : ℕ → α → β) (l : List α) (p : ℕ)
    (h : p < l.length) (d : β) (d' : α) :
    (l.mapIdx f).getD p d = f p (l.getD p d') := by
  have h' : p < (l.mapIdx f).length := by
    rw [List.length_mapIdx]
    exact h
  rw [List.getD_eq_getElem _ _ h', List.getD_eq_getElem _ _ h]
  have := List.get_mapIdx l f p h
  simpa [List.get_eq_getElem] using this

lemma textAt_def (texts : List TextEntity) (t : ℕ) :
    textAt texts t = texts.getD t defaultText := rfl

lemma angle_boundary_perp :
    angle_between ⟨⟨0, 0⟩, ⟨10, 0⟩⟩ ⟨⟨10, 1⟩, ⟨10, -1⟩⟩ = 90 := by
  have hd : dot_product (direction_vector (⟨⟨0, 0⟩, ⟨10, 0⟩⟩ : Line))
      (direction_vector (⟨⟨10, 1⟩, ⟨10, -1⟩⟩ : Line)) = 0 := by
    norm_num [dot_product, direction_vector]
  have h1 : (direction_vector (⟨⟨0, 0⟩, ⟨10, 0⟩⟩ : Line)).1 ^ 2 +
      (direction_vector (⟨⟨0, 0⟩, ⟨10, 0⟩⟩ : Line)).2 ^ 2 = 10 * 10 := by
    norm_num [direction_vector]
  have h2 : (direction_vector (⟨⟨10, 1⟩, ⟨10, -1⟩⟩ : Line)).1 ^ 2 +
      (direction_vector (⟨⟨10, 1⟩, ⟨10, -1⟩⟩ : Line)).2 ^ 2 = 2 * 2 := by
    norm_num [direction_vector]
  rw [angle_between_eval hd h1 h2 (by norm_num) (by norm_num)]
  rw [show (0 : ℝ) / (10 * 2) = 0 by norm_num]
  rw [clamp_of_mem (by norm_num) (by norm_num), Real.arccos_zero]
  have hπ := Real.pi_ne_zero
  field_simp
  ring

lemma angle_parallel_zero :
    angle_between ⟨⟨0, 0⟩, ⟨1, 0⟩⟩ ⟨⟨0, 0⟩, ⟨1 / 2, 0⟩⟩ = 0 := by
  have hd : dot_product (direction_vector (⟨⟨0, 0⟩, ⟨1, 0⟩⟩ : Line))
      (direction_vector (⟨⟨0, 0⟩, ⟨1 / 2, 0⟩⟩ : Line)) = 1 / 2 := by
    norm_num [dot_product, direction_vector]
  have h1 : (direction_vector (⟨⟨0, 0⟩, ⟨1, 0⟩⟩ : Line)).1 ^ 2 +
      (direction_vector (⟨⟨0, 0⟩, ⟨1, 0⟩⟩ : Line)).2 ^ 2 = 1 * 1 := by
    norm_num [direction_vector]
  have h2 : (direction_vector (⟨⟨0, 0⟩, ⟨1 / 2, 0⟩⟩ : Line)).1 ^ 2 +
      (direction_vector (⟨⟨0, 0⟩, ⟨1 / 2, 0⟩⟩ : Line)).2 ^ 2 = (1 / 2) * (1 / 2) := by
    norm_num [direction_vector]
  rw [angle_between_eval hd h1 h2 (by norm_num) (by norm_num)]
  rw [show (1 : ℝ) / 2 / (1 * (1 / 2)) = 1 by norm_num]
  rw [clamp_of_mem (by norm_num) (by norm_num), Real.arccos_one]
  rw [zero_mul, zero_div]

lemma closestW_0 : closest_text ⟨0, 0⟩ textsW 10 = some 0 := by
  have d1 : distance (⟨0, 0⟩ : Point) ⟨3, 4⟩ = 5 := distance_eval (by norm_num) (by norm_num)
  have d2 : distance (⟨0, 0⟩ : Point) ⟨30, 0⟩ = 30 :=
    distance_eval (by norm_num) (by norm_num)
  rw [closest_text, textsW]
  rw [closestTextGo_cons]
  dsimp only
  rw [d1, if_pos ⟨by norm_num, accBeats_none 5⟩]
  rw [closestTextGo_cons]
  dsimp only
  rw [d2, if_neg (by rintro ⟨h, -⟩; norm_num at h)]
  rw [closestTextGo_nil]
  rfl

lemma closestW_1 : closest_text ⟨3, 3⟩ textsW 10 = some 0 := by
  have d1 : distance (⟨3, 3⟩ : Point) ⟨3, 4⟩ = 1 := distance_eval (by norm_num) (by norm_num)
  have d2 : distance (⟨3, 3⟩ : Point) ⟨30, 0⟩ = Real.sqrt 738 := distance_sqrt (by norm_num)
  have hs : ¬ Real.sqrt 738 < 10 := by
    rw [Real.sqrt_lt' (by norm_num)]
    norm_num
  rw [closest_text, textsW]
  rw [closestTextGo_cons]
  dsimp only
  rw [d1, if_pos ⟨by norm_num, accBeats_none 1⟩]
  rw [closestTextGo_cons]
  dsimp only
  rw [d2, if_neg (by rintro ⟨h, -⟩; exact hs h)]
  rw [closestTextGo_nil]
  rfl

lemma matchW_0 :
    (leaderAt (match_texts_to_arrows leadersW textsW CONFIG).1 0).matched_text = some 0 := by
  have h0 : leaderAt (match_texts_to_arrows leadersW textsW CONFIG).1 0 =
      (match closest_text (leaderAt leadersW 0).leader_position textsW
          CONFIG.LEADER_ARROW_MATCHING.max_distance with
        | some t => { leaderAt leadersW 0 with matched_text := some t }
        | none => leaderAt leadersW 0) := by
    simp only [match_texts_to_arrows, leaderAt]
    rw [getD_map_lt _ _ _ (by norm_num [leadersW]) _ defaultLeader]
  rw [h0, show (leaderAt leadersW 0).leader_position = (⟨0, 0⟩ : Point) from rfl,
    show CONFIG.LEADER_ARROW_MATCHING.max_distance = (10 : ℝ) from rfl, closestW_0]

lemma matchW_1 :
    (leaderAt (match_texts_to_arrows leadersW textsW CONFIG).1 1).matched_text = some 0 := by
  have h1 : leaderAt (match_texts_to_arrows leadersW textsW CONFIG).1 1 =
      (match closest_text (leaderAt leadersW 1).leader_position textsW
          CONFIG.LEADER_ARROW_MATCHING.max_distance with
        | some t => { leaderAt leadersW 1 with matched_text := some t }
        | none => leaderAt leadersW 1) := by
    simp only [match_texts_to_arrows, leaderAt]
    rw [getD_map_lt _ _ _ (by norm_num [leadersW]) _ defaultLeader]
  rw [h1, show (leaderAt leadersW 1).leader_position = (⟨3, 3⟩ : Point) from rfl,
    show CONFIG.LEADER_ARROW_MATCHING.max_distance = (10 : ℝ) from rfl, closestW_1]

lemma flatMap_of_map {α β γ : Type _} (g : α → β) (F : β → List γ) (l : List α) :
    (l.map g).flatMap F = l.flatMap fun a => F (g a) := by
  induction l with
  | nil => rfl
  | cons a as ih => simp only [List.map_cons, List.flatMap_cons, ih]

lemma arrowLinesOf_map {L : List ArrowLeader} {f : ArrowLeader → ArrowLeader}
    (h : ∀ l, (f l).arrow = l.arrow) : arrowLinesOf (L.map f) = arrowLinesOf L := by
  rw [arrowLinesOf, arrowLinesOf, List.foldl_map]
  have he : (fun (s : Finset ℕ) (l : ArrowLeader) =>
      insert (f l).arrow.shaft (insert (f l).arrow.left_barb
        (insert (f l).arrow.right_barb s))) =
      fun (s : Finset ℕ) (l : ArrowLeader) =>
        insert l.arrow.shaft (insert l.arrow.left_barb (insert l.arrow.right_barb s)) := by
    funext s l
    rw [h l]
  rw [he]

end Lemmas

section Theorems

open scoped Classical

/-- C1: on the three-segment input — shaft `(10,0) → (0,0)` (index 0) and the
two short barbs `(0,0) → (-2,1)` (index 1) and `(0,0) → (-2,-1)` (index 2) —
arrow detection with the default configuration produces exactly one arrow,
whose shaft is the long segment, whose barbs are the two short segments,
whose tip point is `(0,0)` and whose direction flag is `'end'` (the tip is
the shaft's end point). -/
theorem C1_default_config_three_segments :
    detect_arrows_in_drawing threeLines CONFIG = [⟨0, 1, 2, ⟨0, 0⟩, Loc.end'⟩] :=
  detect3_eval

/-- C2 counterexample: on the double-headed dimension line `fiveLines` the
role list (shaft, left barb, right barb of every arrow) contains the shaft
segment 0 twice — one segment is consumed as the shaft of two different
arrows, refuting the claim that every segment is consumed in at most one
role. -/
theorem C2_counterexample :
    ¬ (roleIndices (detect_arrows_in_drawing fiveLines CONFIG)).Nodup := by
  rw [detect5_eval]
  decide

/-- C2 (amended): across a single detection run no segment appears as a barb
(left or right) of more than one arrow, but shafts are not exclusive: a
segment can be the shaft of up to two arrows (one per endpoint). -/
theorem C2_amended_role_exclusivity (lines : List Line) (config : Config) :
    (barbIndices (detect_arrows_in_drawing lines config)).Nodup ∧
    ∀ s : ℕ,
      ((detect_arrows_in_drawing lines config).filter fun a => a.shaft = s).length ≤ 2 :=
  ⟨detect_barbIndices_nodup lines config, fun s => detect_shaft_filter_le_two lines config s⟩

/-- C6: no segment appears as a barb in more than one arrow across a single
detection run — the barb index sets of distinct arrows are pairwise disjoint,
and within one arrow the two barbs are distinct segments. -/
theorem C6_barb_exclusivity (lines : List Line) (config : Config) :
    (detect_arrows_in_drawing lines config).Pairwise (fun a b =>
      a.left_barb ≠ b.left_barb ∧ a.left_barb ≠ b.right_barb ∧
      a.right_barb ≠ b.left_barb ∧ a.right_barb ≠ b.right_barb) ∧
    (detect_arrows_in_drawing lines config).Forall fun a =>
      a.left_barb ≠ a.right_barb := by
  have h := detect_barbIndices_nodup lines config
  rw [barbIndices, List.nodup_flatMap] at h
  obtain ⟨hall, hpw⟩ := h
  constructor
  · refine hpw.imp ?_
    intro a b hdisj
    refine ⟨?_, ?_, ?_, ?_⟩
    · intro he
      have h1 : a.left_barb ∈ [a.left_barb, a.right_barb] := by simp
      have h2 : a.left_barb ∈ [b.left_barb, b.right_barb] := by rw [he]; simp
      exact hdisj h1 h2
    · intro he
      have h1 : a.left_barb ∈ [a.left_barb, a.right_barb] := by simp
      have h2 : a.left_barb ∈ [b.left_barb, b.right_barb] := by rw [he]; simp
      exact hdisj h1 h2
    · intro he
      have h1 : a.right_barb ∈ [a.left_barb, a.right_barb] := by simp
      have h2 : a.right_barb ∈ [b.left_barb, b.right_barb] := by rw [he]; simp
      exact hdisj h1 h2
    · intro he
      have h1 : a.right_barb ∈ [a.left_barb, a.right_barb] := by simp
      have h2 : a.right_barb ∈ [b.left_barb, b.right_barb] := by rw [he]; simp
      exact hdisj h1 h2
  · rw [List.forall_iff_forall_mem]
    intro a ha
    have h2 := hall a ha
    simpa using h2

/-- C7: `angle_between` is total; its value always lies in `[0, 180]`, a
zero-length direction vector yields `0`, and the clamped cosine always lies
in `[-1, 1]`, so the inverse cosine is never applied outside its domain. -/
theorem C7_angle_between_total (line1 line2 : Line) :
    0 ≤ angle_between line1 line2 ∧ angle_between line1 line2 ≤ 180 ∧
    ((Real.sqrt ((direction_vector line1).1 ^ 2 + (direction_vector line1).2 ^ 2) = 0 ∨
      Real.sqrt ((direction_vector line2).1 ^ 2 + (direction_vector line2).2 ^ 2) = 0) →
      angle_between line1 line2 = 0) ∧
    -1 ≤ max (-1 : ℝ) (min 1
      (dot_product (direction_vector line1) (direction_vector line2) /
        (Real.sqrt ((direction_vector line1).1 ^ 2 + (direction_vector line1).2 ^ 2) *
          Real.sqrt ((direction_vector line2).1 ^ 2 + (direction_vector line2).2 ^ 2)))) ∧
    max (-1 : ℝ) (min 1
      (dot_product (direction_vector line1) (direction_vector line2) /
        (Real.sqrt ((direction_vector line1).1 ^ 2 + (direction_vector line1).2 ^ 2) *
          Real.sqrt ((direction_vector line2).1 ^ 2 + (direction_vector line2).2 ^ 2)))) ≤
      1 := by
  have hπ := Real.pi_pos
  refine ⟨?_, ?_, ?_, le_max_left _ _, max_le (by norm_num) (min_le_left _ _)⟩
  · simp only [angle_between]
    split_ifs with h
    · exact le_rfl
    · have := Real.arccos_nonneg (max (-1)
        (min 1 (dot_product (direction_vector line1) (direction_vector line2) /
          (Real.sqrt ((direction_vector line1).1 ^ 2 + (direction_vector line1).2 ^ 2) *
            Real.sqrt ((direction_vector line2).1 ^ 2 + (direction_vector line2).2 ^ 2)))))
      positivity
  · simp only [angle_between]
    split_ifs with h
    · norm_num
    · have h1 := Real.arccos_le_pi (max (-1)
        (min 1 (dot_product (direction_vector line1) (direction_vector line2) /
          (Real.sqrt ((direction_vector line1).1 ^ 2 + (direction_vector line1).2 ^ 2) *
            Real.sqrt ((direction_vector line2).1 ^ 2 + (direction_vector line2).2 ^ 2)))))
      calc Real.arccos _ * 180 / Real.pi ≤ Real.pi * 180 / Real.pi := by gcongr
      _ = 180 := by field_simp
  · intro h
    simp only [angle_between]
    rw [if_pos h]

/-- C7 witness: a degenerate zero-length segment yields angle `0`. -/
theorem C7_witness :
    angle_between ⟨⟨0, 0⟩, ⟨0, 0⟩⟩ ⟨⟨0, 0⟩, ⟨1, 0⟩⟩ = 0 ∧
    0 ≤ angle_between ⟨⟨0, 0⟩, ⟨0, 0⟩⟩ ⟨⟨0, 0⟩, ⟨1, 0⟩⟩ := by
  have h := C7_angle_between_total ⟨⟨0, 0⟩, ⟨0, 0⟩⟩ ⟨⟨0, 0⟩, ⟨1, 0⟩⟩
  refine ⟨h.2.2.1 (Or.inl ?_), h.1⟩
  have e : (direction_vector (⟨⟨0, 0⟩, ⟨0, 0⟩⟩ : Line)).1 ^ 2 +
      (direction_vector (⟨⟨0, 0⟩, ⟨0, 0⟩⟩ : Line)).2 ^ 2 = 0 := by
    norm_num [direction_vector]
  rw [e, Real.sqrt_zero]

/-- C9: leader assembly computes each leader's indicator position purely from
the arrow's shaft and direction flag: the shaft's start point when the
direction is `'end'`, the shaft's end point when it is `'start'`, and the
shaft's midpoint when it is `'both'`. -/
theorem C9_leader_positions (arrows : List Arrow) (lines : List Line) (p : ℕ)
    (hp : p < arrows.length) :
    (leaderAt (create_arrow_leaders lines arrows) p).leader_position =
      (match (arrowAt arrows p).direction with
        | Loc.end' => (lineAt lines (arrowAt arrows p).shaft).start_point
        | Loc.start => (lineAt lines (arrowAt arrows p).shaft).end_point
        | Loc.both =>
            ⟨((lineAt lines (arrowAt arrows p).shaft).start_point.x +
                (lineAt lines (arrowAt arrows p).shaft).end_point.x) / 2,
              ((lineAt lines (arrowAt arrows p).shaft).start_point.y +
                (lineAt lines (arrowAt arrows p).shaft).end_point.y) / 2⟩) := by
  rw [create_arrow_leaders, leaderAt,
    getD_map_lt _ _ _ hp _ (⟨0, 0, 0, ⟨0, 0⟩, Loc.start⟩ : Arrow)]
  show get_leader_position (lineAt lines (arrowAt arrows p).shaft)
      (arrowAt arrows p).direction = _
  rcases hdir : (arrowAt arrows p).direction with _ | _ | _ <;>
    rw [get_leader_position]

/-- C9 witness: a concrete arrow with direction `'end'` gets the shaft's
start point as indicator position. -/
theorem C9_witness :
    (leaderAt (create_arrow_leaders [⟨⟨1, 2⟩, ⟨3, 4⟩⟩]
      [⟨0, 0, 0, ⟨3, 4⟩, Loc.end'⟩]) 0).leader_position = ⟨1, 2⟩ := by
  have h := C9_leader_positions [⟨0, 0, 0, ⟨3, 4⟩, Loc.end'⟩] [⟨⟨1, 2⟩, ⟨3, 4⟩⟩] 0
    (by norm_num)
  exact h.trans rfl

/-- C10: `are_lines_parallel` holds exactly when the angle is below the
threshold or above `180` minus the threshold, and in the meeting-point pass a
parallel pair (under the default threshold `5.0`) contributes no entry to
either meeting list of the longer segment. -/
theorem C10_parallel_pairs_skipped :
    (∀ (line1 line2 : Line) (angle_threshold : ℝ),
      are_lines_parallel line1 line2 angle_threshold ↔
        angle_between line1 line2 < angle_threshold ∨
        angle_between line1 line2 > 180 - angle_threshold) ∧
    ∀ (lines : List Line) (lens : List ℝ) (tol : ℝ) (i j : ℕ) (jp : Loc),
      are_lines_parallel (lineAt lines i) (lineAt lines j) 5 →
      (j, jp) ∉ (meetsOf lines lens tol i).start ∧
      (j, jp) ∉ (meetsOf lines lens tol i).end' := by
  constructor
  · intro l1 l2 t
    exact Iff.rfl
  · intro lines lens tol i j jp hpar
    constructor
    · intro hmem
      exact (meetingEntry_fst (meetsOf_mem_start hmem).2).2.2.2.1 hpar
    · intro hmem
      exact (meetingEntry_fst (meetsOf_mem_end hmem).2).2.2.2.1 hpar

/-- C10 witness: two collinear horizontal segments are parallel and the
shorter one produces no meeting entry on the longer one. -/
theorem C10_witness :
    are_lines_parallel ⟨⟨0, 0⟩, ⟨1, 0⟩⟩ ⟨⟨0, 0⟩, ⟨1 / 2, 0⟩⟩ 5 ∧
    (1, Loc.start) ∉ (meetsOf [⟨⟨0, 0⟩, ⟨1, 0⟩⟩, ⟨⟨0, 0⟩, ⟨1 / 2, 0⟩⟩]
      ([(⟨⟨0, 0⟩, ⟨1, 0⟩⟩ : Line), ⟨⟨0, 0⟩, ⟨1 / 2, 0⟩⟩].map length) 0.1 0).start ∧
    (1, Loc.start) ∉ (meetsOf [⟨⟨0, 0⟩, ⟨1, 0⟩⟩, ⟨⟨0, 0⟩, ⟨1 / 2, 0⟩⟩]
      ([(⟨⟨0, 0⟩, ⟨1, 0⟩⟩ : Line), ⟨⟨0, 0⟩, ⟨1 / 2, 0⟩⟩].map length) 0.1 0).end' := by
  have hpar : are_lines_parallel (⟨⟨0, 0⟩, ⟨1, 0⟩⟩ : Line) ⟨⟨0, 0⟩, ⟨1 / 2, 0⟩⟩ 5 :=
    Or.inl (by rw [angle_parallel_zero]; norm_num)
  have h := C10_parallel_pairs_skipped.2 [⟨⟨0, 0⟩, ⟨1, 0⟩⟩, ⟨⟨0, 0⟩, ⟨1 / 2, 0⟩⟩]
    ([(⟨⟨0, 0⟩, ⟨1, 0⟩⟩ : Line), ⟨⟨0, 0⟩, ⟨1 / 2, 0⟩⟩].map length) 0.1 0 1 Loc.start hpar
  exact ⟨hpar, h⟩

/-- C3: every arrow produced by detection satisfies the structural
invariants: both barbs strictly shorter than the shaft, both barb-to-shaft
angles at most `arrow_angle_max`, barb lengths within `barb_length_diff_max`
of each other, barb angles within `barb_angle_diff_max` of each other, each
barb having an endpoint within `tip_point_tolerance` of the tip point, and
the direction flag being `'start'` exactly when the tip is the shaft's start
point and `'end'` exactly when it is the shaft's end point. -/
theorem C3_arrow_invariants (lines : List Line) (config : Config) :
    (detect_arrows_in_drawing lines config).Forall fun a =>
      length (lineAt lines a.left_barb) < length (lineAt lines a.shaft) ∧
      length (lineAt lines a.right_barb) < length (lineAt lines a.shaft) ∧
      angle_between (lineAt lines a.shaft) (lineAt lines a.left_barb) ≤
        config.ARROW_DETECTION.arrow_angle_max ∧
      angle_between (lineAt lines a.shaft) (lineAt lines a.right_barb) ≤
        config.ARROW_DETECTION.arrow_angle_max ∧
      |length (lineAt lines a.left_barb) - length (lineAt lines a.right_barb)| ≤
        config.ARROW_DETECTION.barb_length_diff_max ∧
      |angle_between (lineAt lines a.shaft) (lineAt lines a.left_barb) -
        angle_between (lineAt lines a.shaft) (lineAt lines a.right_barb)| ≤
        config.ARROW_DETECTION.barb_angle_diff_max ∧
      min (distance a.tip_point (lineAt lines a.left_barb).start_point)
        (distance a.tip_point (lineAt lines a.left_barb).end_point) ≤
        config.ARROW_DETECTION.tip_point_tolerance ∧
      min (distance a.tip_point (lineAt lines a.right_barb).start_point)
        (distance a.tip_point (lineAt lines a.right_barb).end_point) ≤
        config.ARROW_DETECTION.tip_point_tolerance ∧
      (a.direction = Loc.start ↔ a.tip_point = (lineAt lines a.shaft).start_point) ∧
      (a.direction = Loc.end' ↔ a.tip_point = (lineAt lines a.shaft).end_point) := by
  rw [List.forall_iff_forall_mem]
  simp only [detect_arrows_in_drawing]
  refine foldl_invariant (detectIter lines (lines.map length) config.ARROW_DETECTION)
    (fun st => ∀ a ∈ st.1,
      length (lineAt lines a.left_barb) < length (lineAt lines a.shaft) ∧
      length (lineAt lines a.right_barb) < length (lineAt lines a.shaft) ∧
      angle_between (lineAt lines a.shaft) (lineAt lines a.left_barb) ≤
        config.ARROW_DETECTION.arrow_angle_max ∧
      angle_between (lineAt lines a.shaft) (lineAt lines a.right_barb) ≤
        config.ARROW_DETECTION.arrow_angle_max ∧
      |length (lineAt lines a.left_barb) - length (lineAt lines a.right_barb)| ≤
        config.ARROW_DETECTION.barb_length_diff_max ∧
      |angle_between (lineAt lines a.shaft) (lineAt lines a.left_barb) -
        angle_between (lineAt lines a.shaft) (lineAt lines a.right_barb)| ≤
        config.ARROW_DETECTION.barb_angle_diff_max ∧
      min (distance a.tip_point (lineAt lines a.left_barb).start_point)
        (distance a.tip_point (lineAt lines a.left_barb).end_point) ≤
        config.ARROW_DETECTION.tip_point_tolerance ∧
      min (distance a.tip_point (lineAt lines a.right_barb).start_point)
        (distance a.tip_point (lineAt lines a.right_barb).end_point) ≤
        config.ARROW_DETECTION.tip_point_tolerance ∧
      (a.direction = Loc.start ↔ a.tip_point = (lineAt lines a.shaft).start_point) ∧
      (a.direction = Loc.end' ↔ a.tip_point = (lineAt lines a.shaft).end_point))
    (List.range lines.length) ([], ∅) (by simp) ?_
  intro t i _ hI
  rw [detectIter]
  refine detectStep_forall (detectStep_forall hI ?_) ?_
  · intro b1 b2 hc
    obtain ⟨hne, hb1, hb2, hu1, hu2, hl1, hl2, hld, ha1, ha2, had, hm1, hm2, hpos⟩ :=
      new_arrow_spec (fun j jp h => meetsOf_mem_start h) (meetsOf_start_nodup _ _ _ _) hc
    have hse := start_ne_end_of_length_pos hpos
    exact ⟨hl1, hl2, ha1, ha2, hld, had, hm1, hm2,
      iff_of_true rfl rfl, iff_of_false (by simp) hse⟩
  · intro b1 b2 hc
    obtain ⟨hne, hb1, hb2, hu1, hu2, hl1, hl2, hld, ha1, ha2, had, hm1, hm2, hpos⟩ :=
      new_arrow_spec (fun j jp h => meetsOf_mem_end h) (meetsOf_end_nodup _ _ _ _) hc
    have hse := start_ne_end_of_length_pos hpos
    exact ⟨hl1, hl2, ha1, ha2, hld, had, hm1, hm2,
      iff_of_false (by simp) fun h => hse h.symm, iff_of_true rfl rfl⟩

/-- C4: boundary detection appends segment `j` to leader `p`'s boundary list
exactly when `j` is not a shaft or barb of any detected arrow, the closer of
its endpoints is within `max_distance_to_arrow` of the leader's arrow tip,
and its angle to the arrow shaft lies in the closed band
`[perpendicular_angle_min, perpendicular_angle_max]`; the test is evaluated
independently for every leader, so a segment can be appended to several
leaders' lists. -/
theorem C4_boundary_matching (arrow_leaders : List ArrowLeader) (lines : List Line)
    (config : Config) (p j : ℕ) (hp : p < arrow_leaders.length) :
    j ∈ (leaderAt (detect_boundary_lines arrow_leaders lines config).1 p).matched_boundaries ↔
      j ∈ (leaderAt arrow_leaders p).matched_boundaries ∨
      (j < lines.length ∧ j ∉ arrowLinesOf arrow_leaders ∧
        min (distance (leaderAt arrow_leaders p).arrow.tip_point
            (lineAt lines j).start_point)
          (distance (leaderAt arrow_leaders p).arrow.tip_point
            (lineAt lines j).end_point) ≤
          config.LEADER_BOUNDARY_MATCHING.max_distance_to_arrow ∧
        config.LEADER_BOUNDARY_MATCHING.perpendicular_angle_min ≤
          angle_between (lineAt lines (leaderAt arrow_leaders p).arrow.shaft)
            (lineAt lines j) ∧
        angle_between (lineAt lines (leaderAt arrow_leaders p).arrow.shaft)
          (lineAt lines j) ≤
          config.LEADER_BOUNDARY_MATCHING.perpendicular_angle_max) := by
  simp only [detect_boundary_lines, leaderAt]
  rw [getD_map_lt _ _ _ hp _ defaultLeader]
  simp only [List.mem_append, List.mem_filter, List.mem_range, boundaryQualifies,
    decide_eq_true_eq]

/-- C4 witness: the vertical candidate segment 3 of `boundaryLines`, one unit
from the tip of `boundaryLeader` and exactly perpendicular to its shaft, is
appended to the leader's boundary list. -/
theorem C4_witness :
    3 ∈ (leaderAt (detect_boundary_lines [boundaryLeader] boundaryLines CONFIG).1
      0).matched_boundaries := by
  refine (C4_boundary_matching [boundaryLeader] boundaryLines CONFIG 0 3 (by norm_num)).mpr
    (Or.inr ?_)
  have e0 : leaderAt [boundaryLeader] 0 = boundaryLeader := rfl
  have e3 : lineAt boundaryLines 3 = ⟨⟨10, 1⟩, ⟨10, -1⟩⟩ := rfl
  have etip : boundaryLeader.arrow.tip_point = ⟨10, 0⟩ := rfl
  have eshaft : lineAt boundaryLines boundaryLeader.arrow.shaft = ⟨⟨0, 0⟩, ⟨10, 0⟩⟩ := rfl
  refine ⟨by norm_num [boundaryLines], ?_, ?_, ?_, ?_⟩
  · rw [mem_arrowLinesOf]
    rintro ⟨l, hl, h⟩
    rw [List.mem_singleton] at hl
    subst hl
    simp [boundaryLeader] at h
  · rw [e0, e3, etip]
    have d1 : distance (⟨10, 0⟩ : Point) ⟨10, 1⟩ = 1 :=
      distance_eval (by norm_num) (by norm_num)
    have d2 : distance (⟨10, 0⟩ : Point) ⟨10, -1⟩ = 1 :=
      distance_eval (by norm_num) (by norm_num)
    show min (distance (⟨10, 0⟩ : Point) ⟨10, 1⟩) (distance (⟨10, 0⟩ : Point) ⟨10, -1⟩) ≤ _
    rw [d1, d2, min_self]
    norm_num [CONFIG]
  · rw [e0, e3, eshaft, angle_boundary_perp]
    norm_num [CONFIG]
  · rw [e0, e3, eshaft, angle_boundary_perp]
    norm_num [CONFIG]

/-- C5: text matching assigns each leader the closest text within the
`max_distance` cutoff (ties and competition between leaders are not
arbitrated: the test is per leader): whenever at least one text lies inside
the cutoff the leader is assigned some text, and any assigned text is inside
the cutoff and at minimal distance among in-cutoff texts; a leader whose
every text is out of range keeps its `none`; every assignment is recorded in
the chosen text's back-reference list; and two different leaders can be
assigned the same text, as the concrete `leadersW` / `textsW` instance
shows. -/
theorem C5_text_matching (arrow_leaders : List ArrowLeader) (texts : List TextEntity)
    (config : Config) (p : ℕ) (hp : p < arrow_leaders.length)
    (hnone : (leaderAt arrow_leaders p).matched_text = none) :
    (∀ t, (leaderAt (match_texts_to_arrows arrow_leaders texts config).1 p).matched_text =
        some t →
      t < texts.length ∧
      distance (leaderAt arrow_leaders p).leader_position (textAt texts t).position <
        config.LEADER_ARROW_MATCHING.max_distance ∧
      (∀ t', t' < texts.length →
        distance (leaderAt arrow_leaders p).leader_position (textAt texts t').position <
          config.LEADER_ARROW_MATCHING.max_distance →
        distance (leaderAt arrow_leaders p).leader_position (textAt texts t).position ≤
          distance (leaderAt arrow_leaders p).leader_position (textAt texts t').position) ∧
      p ∈ (textAt (match_texts_to_arrows arrow_leaders texts config).2 t).matched_arrows) ∧
    ((∃ t', t' < texts.length ∧
        distance (leaderAt arrow_leaders p).leader_position (textAt texts t').position <
          config.LEADER_ARROW_MATCHING.max_distance) →
      ∃ t, (leaderAt (match_texts_to_arrows arrow_leaders texts config).1 p).matched_text =
        some t) ∧
    ((∀ t', t' < texts.length →
        ¬ distance (leaderAt arrow_leaders p).leader_position (textAt texts t').position <
          config.LEADER_ARROW_MATCHING.max_distance) →
      (leaderAt (match_texts_to_arrows arrow_leaders texts config).1 p).matched_text =
        none) ∧
    (∃ q1 q2 t, q1 ≠ q2 ∧
      (leaderAt (match_texts_to_arrows leadersW textsW CONFIG).1 q1).matched_text =
        some t ∧
      (leaderAt (match_texts_to_arrows leadersW textsW CONFIG).1 q2).matched_text =
        some t) := by
  have hL : leaderAt (match_texts_to_arrows arrow_leaders texts config).1 p =
      (match closest_text (leaderAt arrow_leaders p).leader_position texts
          config.LEADER_ARROW_MATCHING.max_distance with
        | some t => { leaderAt arrow_leaders p with matched_text := some t }
        | none => leaderAt arrow_leaders p) := by
    simp only [match_texts_to_arrows, leaderAt]
    rw [getD_map_lt _ _ _ hp _ defaultLeader]
  refine ⟨?_, ?_, ?_, ?_⟩
  · intro t hmt
    rw [hL] at hmt
    rcases hct : closest_text (leaderAt arrow_leaders p).leader_position texts
        config.LEADER_ARROW_MATCHING.max_distance with _ | t0
    · rw [hct] at hmt
      dsimp only at hmt
      rw [hnone] at hmt
      exact absurd hmt (by simp)
    · rw [hct] at hmt
      dsimp only at hmt
      rw [Option.some_inj] at hmt
      rw [hmt] at hct
      rw [closest_text] at hct
      rcases hgo : closestTextGo (leaderAt arrow_leaders p).leader_position
          config.LEADER_ARROW_MATCHING.max_distance texts 0 none with _ | dt
      · rw [hgo] at hct
        exact absurd hct (by simp)
      · rw [hgo] at hct
        obtain ⟨d, t1⟩ := dt
        simp only [Option.map_some'] at hct
        rw [Option.some_inj] at hct
        rw [hct] at hgo
        rcases closestTextGo_some_spec texts 0 none d t hgo with h | ⟨-, hlen, hdist, hmax⟩
        · exact absurd h (by simp)
        · simp only [Nat.sub_zero] at hlen hdist
          have hmin := (closestTextGo_min texts 0 none d t hgo).2
          have hback : p ∈ (textAt (match_texts_to_arrows arrow_leaders texts config).2
              t).matched_arrows := by
            have hT : textAt (match_texts_to_arrows arrow_leaders texts config).2 t =
                { textAt texts t with matched_arrows := (textAt texts t).matched_arrows ++
                    ((List.range arrow_leaders.length).filter fun q =>
                      closest_text (leaderAt arrow_leaders q).leader_position texts
                        config.LEADER_ARROW_MATCHING.max_distance = some t) } := by
              simp only [match_texts_to_arrows, textAt]
              rw [getD_mapIdx_lt _ _ _ hlen _ defaultText]
            rw [hT]
            dsimp only
            refine List.mem_append.mpr (Or.inr ?_)
            rw [List.mem_filter]
            refine ⟨List.mem_range.mpr hp, ?_⟩
            rw [decide_eq_true_eq, closest_text, hgo]
            rfl
          refine ⟨hlen, ?_, ?_, hback⟩
          · rw [textAt_def, ← hdist]
            exact hmax
          · intro t' ht' hdt'
            rw [textAt_def] at hdt'
            have h5 := hmin t' ht' hdt'
            rw [textAt_def, textAt_def, ← hdist]
            exact h5
  · rintro ⟨t', ht', hd'⟩
    rw [hL]
    rcases hct : closest_text (leaderAt arrow_leaders p).leader_position texts
        config.LEADER_ARROW_MATCHING.max_distance with _ | t0
    · exfalso
      rw [closest_text, Option.map_eq_none'] at hct
      obtain ⟨-, hall⟩ := (closestTextGo_eq_none texts 0 none).mp hct
      rw [textAt_def] at hd'
      exact hall t' ht' hd'
    · exact ⟨t0, rfl⟩
  · intro hall
    rw [hL]
    rcases hct : closest_text (leaderAt arrow_leaders p).leader_position texts
        config.LEADER_ARROW_MATCHING.max_distance with _ | t0
    · dsimp only
      exact hnone
    · exfalso
      rw [closest_text] at hct
      rcases hgo : closestTextGo (leaderAt arrow_leaders p).leader_position
          config.LEADER_ARROW_MATCHING.max_distance texts 0 none with _ | dt
      · rw [hgo] at hct
        exact absurd hct (by simp)
      · obtain ⟨d, t1⟩ := dt
        rcases closestTextGo_some_spec texts 0 none d t1 hgo with h | ⟨-, hlen, hdist, hmax⟩
        · exact absurd h (by simp)
        · simp only [Nat.sub_zero] at hlen hdist
          refine hall t1 hlen ?_
          rw [textAt_def, ← hdist]
          exact hmax
  · exact ⟨0, 1, 0, by norm_num, matchW_0, matchW_1⟩

/-- C5 witness: on the concrete instance, leader 0 (indicator `(0,0)`) is
matched to text 0 at distance `5 < 10` and recorded in its back references. -/
theorem C5_witness :
    distance (leaderAt leadersW 0).leader_position (textAt textsW 0).position <
      CONFIG.LEADER_ARROW_MATCHING.max_distance ∧
    0 ∈ (textAt (match_texts_to_arrows leadersW textsW CONFIG).2 0).matched_arrows ∧
    (leaderAt (match_texts_to_arrows leadersW textsW CONFIG).1 0).matched_text = some 0 := by
  have h := C5_text_matching leadersW textsW CONFIG 0 (by norm_num [leadersW]) rfl
  obtain ⟨hlen, hdist, hmin, hback⟩ := h.1 0 matchW_0
  exact ⟨hdist, hback, matchW_0⟩

/-- C8: boundary-line detection and text matching read and write disjoint
leader fields, so running boundary detection first (as `main` does) and
running text matching first (as the spec describes) produce the same final
leader states; the text back-references and the returned boundary list are
also unaffected by the order. -/
theorem C8_pass_order_commutes (arrow_leaders : List ArrowLeader)
    (texts : List TextEntity) (lines : List Line) (config : Config) :
    (match_texts_to_arrows (detect_boundary_lines arrow_leaders lines config).1 texts
        config).1 =
      (detect_boundary_lines (match_texts_to_arrows arrow_leaders texts config).1 lines
        config).1 ∧
    (match_texts_to_arrows (detect_boundary_lines arrow_leaders lines config).1 texts
        config).2 = (match_texts_to_arrows arrow_leaders texts config).2 ∧
    (detect_boundary_lines (match_texts_to_arrows arrow_leaders texts config).1 lines
        config).2 = (detect_boundary_lines arrow_leaders lines config).2 := by
  have harrow : ∀ l : ArrowLeader,
      ((match closest_text l.leader_position texts
          config.LEADER_ARROW_MATCHING.max_distance with
        | some t => { l with matched_text := some t }
        | none => l) : ArrowLeader).arrow = l.arrow := by
    intro l
    rcases hc : closest_text l.leader_position texts
        config.LEADER_ARROW_MATCHING.max_distance with _ | t <;> rfl
  refine ⟨?_, ?_, ?_⟩
  · simp only [match_texts_to_arrows, detect_boundary_lines]
    rw [List.map_map, List.map_map]
    simp only [arrowLinesOf_map harrow]
    refine List.map_congr_left ?_
    intro l _
    dsimp only [Function.comp]
    rcases hc : closest_text l.leader_position texts
        config.LEADER_ARROW_MATCHING.max_distance with _ | t
    · rfl
    · simp only [boundaryQualifies]
  · simp only [match_texts_to_arrows, detect_boundary_lines]
    congr 1
    funext t_idx text
    rw [List.length_map]
    have hfil : ∀ q ∈ List.range arrow_leaders.length,
        (decide (closest_text (leaderAt (arrow_leaders.map fun leader =>
            { leader with matched_boundaries := leader.matched_boundaries ++
              ((List.range lines.length).filter fun j =>
                boundaryQualifies (arrowLinesOf arrow_leaders) lines
                  config.LEADER_BOUNDARY_MATCHING leader j) }) q).leader_position texts
          config.LEADER_ARROW_MATCHING.max_distance = some t_idx)) =
        decide (closest_text (leaderAt arrow_leaders q).leader_position texts
          config.LEADER_ARROW_MATCHING.max_distance = some t_idx) := by
      intro q hq
      rw [List.mem_range] at hq
      rw [leaderAt, getD_map_lt _ _ _ hq _ defaultLeader, leaderAt]
    rw [List.filter_congr hfil]
  · simp only [match_texts_to_arrows, detect_boundary_lines]
    simp only [arrowLinesOf_map harrow]
    rw [flatMap_of_map]
    refine List.flatMap_congr ?_
    intro l _
    have hq : ∀ j ∈ List.range lines.length,
        (decide (boundaryQualifies (arrowLinesOf arrow_leaders) lines
          config.LEADER_BOUNDARY_MATCHING
          (match closest_text l.leader_position texts
              config.LEADER_ARROW_MATCHING.max_distance with
            | some t => { l with matched_text := some t }
            | none => l) j)) =
        decide (boundaryQualifies (arrowLinesOf arrow_leaders) lines
          config.LEADER_BOUNDARY_MATCHING l j) := by
      intro j _
      rcases hc : closest_text l.leader_position texts
          config.LEADER_ARROW_MATCHING.max_distance with _ | t
      · rfl
      · simp only [boundaryQualifies]
    exact List.filter_congr hq

end Theorems

end CadWork
